import Mathlib

set_option maxRecDepth 40000

/-!
# Verification of the `ape-rs` Monkey's Audio (APE) decoder core

A shallow embedding of the decoding core of the `ape-rs` crate
(range coder + adaptive Rice state, NNFilter, predictor, frame
orchestrator, sample iterator), translated from the Rust sources in
`src/`, together with theorems settling the frozen specification claims.

Modelling conventions:
* unsigned machine integers (`u32`, `u16`, bytes) are `Nat` with an
  explicit `% 2^w` wherever the Rust operation can wrap (release-mode
  two's-complement wrapping semantics);
* signed machine integers (`i16`, `i32`, `i64`) are `Int`, reduced with
  `wrap16` / `wrap32` / `wrap64` exactly where the Rust code wraps or
  truncating casts occur; Rust's signed `/` is `Int.tdiv` (truncation
  toward zero) and arithmetic right shift is flooring division by a
  power of two;
* `Vec` indexing is `List.getD`/`List.set`; in-bounds behaviour is settled
  by separate safety theorems;
* loops with a data-independent bound are structural recursion on that
  bound; the range coder's renormalization loop multiplies `range` by 256
  while `range ≤ 2^23`, so from any `range ≥ 1` it runs at most three
  times and is embedded with that bound made explicit.
-/

namespace Ape

/-! ## Machine-integer helpers -/

/-- The constant 2^16. -/
def U16M : Nat := 65536

/-- The constant 2^32. -/
def U32M : Nat := 4294967296

/-- The constant 2^64. -/
def U64M : Nat := 18446744073709551616

/-- The value `u32::MAX`, used by the source as an overflow sentinel. -/
def U32MAX : Nat := 4294967295

/-- Reduce a `Nat` into the `u32` range (Rust release-mode wrapping). -/
def w32 (n : Nat) : Nat := n % U32M

/-- Two's-complement reduction of an `Int` into the `i16` range. -/
def wrap16 (z : Int) : Int := (z + 32768) % 65536 - 32768

/-- Two's-complement reduction of an `Int` into the `i32` range. -/
def wrap32 (z : Int) : Int := (z + 2147483648) % 4294967296 - 2147483648

/-- Two's-complement reduction of an `Int` into the `i64` range. -/
def wrap64 (z : Int) : Int :=
  (z + 9223372036854775808) % 18446744073709551616 - 9223372036854775808

/-- Arithmetic (sign-extending) right shift on `Int`: flooring division. -/
def sra (z : Int) (n : Nat) : Int := Int.fdiv z (2 ^ n)

/-- The APE sign function from the source (`apesign`): `-1` for positive,
`+1` for negative, `0` for zero. -/
def apesign (x : Int) : Int :=
  (if x < 0 then 1 else 0) - (if x > 0 then 1 else 0)

/-! ## Rice state (`src/range_coder.rs`, `RiceState`) -/

/-- Adaptive parameter state for the Golomb-Rice-like pivot computation. -/
structure RiceState where
  k : Nat
  ksum : Nat
  deriving Repr, DecidableEq

namespace RiceState

/-- Source `RiceState::new`: k = 10, ksum = 1 << 14 = 16384. -/
def new : RiceState := { k := 10, ksum := 16384 }

/-- Source `RiceState::update`: the source saturates the addend at `u32::MAX`,
adds it, and then subtracts `(ksum + 16) >> 5` computed from the
*post-add* value, with a saturating subtraction (`Nat` subtraction is
saturating, matching `saturating_sub`).  The adaptation shifts
`1 << (k + 4)` and `1 << (k + 5)` are modelled as plain powers; the `u32`
shift only differs for `k ≥ 28`, and `k` never leaves `[0, 24]`. -/
def update (s : RiceState) (x : Nat) : RiceState :=
  let add := min ((x + 1) / 2) (U32MAX - s.ksum)
  let ksum1 := s.ksum + add
  let sub := ((ksum1 + 16) % U32M) >>> 5
  let ksum2 := ksum1 - sub
  let k' :=
    if s.k > 0 ∧ ksum2 < 2 ^ (s.k + 4) then s.k - 1
    else if ksum2 ≥ 2 ^ (s.k + 5) ∧ s.k < 24 then s.k + 1
    else s.k
  { k := k', ksum := ksum2 }

/-- Source `RiceState::pivot`: the expected magnitude of the next value. -/
def pivot (s : RiceState) : Nat := max (s.ksum >>> 5) 1

end RiceState

/-- Fold a list of decoded values through `RiceState.update`. -/
def riceRun (s : RiceState) : List Nat → RiceState
  | [] => s
  | x :: xs => riceRun (s.update x) xs

/-! ## Range coder (`src/range_coder.rs`, `RangeCoder`) -/

/-- Source `CODE_BITS = 32`; `TOP_VALUE = 1 << 31`. -/
def TOP_VALUE : Nat := 2147483648

/-- Source `BOTTOM_VALUE = TOP_VALUE >> 8 = 2^23`. -/
def BOTTOM_VALUE : Nat := 8388608

/-- Source `EXTRA_BITS = ((CODE_BITS - 2) % 8) + 1 = 7`. -/
def EXTRA_BITS : Nat := 7

/-- Source `MODEL_ELEMENTS = 22`. -/
def MODEL_ELEMENTS : Nat := 22

/-- Cumulative frequency table `COUNTS_3980` (22 entries). -/
def counts3980 : List Nat :=
  [0, 19578, 36160, 48417, 56323, 60899, 63265, 64435, 64971, 65232, 65351,
   65416, 65447, 65466, 65476, 65482, 65485, 65488, 65490, 65491, 65492,
   65493]

/-- Per-symbol width table `COUNTS_DIFF_3980` (21 entries). -/
def countsDiff3980 : List Nat :=
  [19578, 16582, 12257, 7906, 4576, 2366, 1170, 536, 261, 119, 65, 31, 19,
   10, 6, 3, 3, 2, 1, 1, 1]

/-- Byte-level range coder state over a compressed byte slice. -/
structure RangeCoder where
  data : List Nat
  pos : Nat
  low : Nat
  range : Nat
  help : Nat
  deriving Repr, DecidableEq

namespace RangeCoder

/-- Source `read_byte`: next byte, or 0 past the end (the cursor only advances
while in range). -/
def readByte (rc : RangeCoder) : Nat × RangeCoder :=
  if rc.pos < rc.data.length then
    (rc.data.getD rc.pos 0, { rc with pos := rc.pos + 1 })
  else
    (0, rc)

/-- One conditional iteration of the renormalization loop: if
`range ≤ BOTTOM_VALUE`, shift in one byte. -/
def normStep (rc : RangeCoder) : RangeCoder :=
  if rc.range ≤ BOTTOM_VALUE then
    let (b, rc') := readByte rc
    { rc' with low := ((rc'.low <<< 8) % U32M) ||| b, range := rc'.range <<< 8 }
  else rc

/-- Source `normalize`: the source loops while `range ≤ BOTTOM_VALUE`, multiplying
`range` by 256 each time, so from any `range ≥ 1` at most three iterations
occur (`1 * 256^3 = 2^24 > 2^23`); the loop is embedded as three
conditional steps.  (For `range = 0` the source would loop forever; every
state this development reaches has `range ≥ 1`.) -/
def normalize (rc : RangeCoder) : RangeCoder :=
  normStep (normStep (normStep rc))

/-- Source `RangeCoder::new`: read the first byte, keep its top `EXTRA_BITS` bits
in `low`, set `range = 1 << EXTRA_BITS`, and normalize. -/
def new (data : List Nat) : RangeCoder :=
  let rc0 : RangeCoder := { data := data, pos := 0, low := 0, range := 2 ^ EXTRA_BITS, help := 0 }
  let (first, rc1) := readByte rc0
  normalize { rc1 with low := first >>> (8 - EXTRA_BITS) }

/-- Source `decode_culshift`: `help = range >> shift; value = low / help`, capped
at `2^shift - 1`.  Lean's `Nat` division by zero yields 0 where the Rust
`low / help` panics; `decodeCulshiftChecked` below makes that panic
explicit, and the C10 theorem shows `get_symbol`'s divisor is nonzero
under the normalization invariant. -/
def decodeCulshift (rc : RangeCoder) (shift : Nat) : Nat × RangeCoder :=
  let h := rc.range >>> shift
  let value := rc.low / h
  (min value (2 ^ shift - 1), { rc with help := h })

/-- Source `decode_culfreq`: `help = range / tot_f; value = low / help`, capped at
`tot_f - 1`. -/
def decodeCulfreq (rc : RangeCoder) (totF : Nat) : Nat × RangeCoder :=
  let h := rc.range / totF
  let value := rc.low / h
  (min value (totF - 1), { rc with help := h })

/-- Source `decode_update`: `low -= help * lt_f; range = help * sy_f`, then
normalize (`u32` arithmetic wraps). -/
def decodeUpdate (rc : RangeCoder) (ltF syF : Nat) : RangeCoder :=
  normalize { rc with
    low := (rc.low + U32M - (rc.help * ltF) % U32M) % U32M,
    range := (rc.help * syF) % U32M }

/-- The source's binary search over `counts3980`, embedded with the
decreasing bound `hi - lo` as explicit structural fuel (`fuel ≥ hi - lo`
reproduces the loop exactly). -/
def binSearch (cf : Nat) : Nat → Nat → Nat → Nat
  | 0, lo, _ => lo
  | fuel + 1, lo, hi =>
    if lo < hi then
      let mid := (lo + hi + 1) / 2
      if counts3980.getD mid 0 ≤ cf then binSearch cf fuel mid hi
      else binSearch cf fuel lo (mid - 1)
    else lo

/-- Source `get_symbol`: decode a symbol index from the frequency model; the
escape branch (`cf > 65492`) returns the sentinel `u32::MAX`. -/
def getSymbol (rc : RangeCoder) : Nat × RangeCoder :=
  let (cf0, rc1) := decodeCulshift rc 16
  let cf := cf0 % U16M
  if cf > 65492 then
    (U32MAX, decodeUpdate rc1 65493 (65536 - 65493))
  else
    let lo := binSearch cf 21 0 (MODEL_ELEMENTS - 1)
    (lo, decodeUpdate rc1 (counts3980.getD lo 0) (countsDiff3980.getD lo 0))

/-- Source `get_overflow`: decode the overflow count, resolving the sentinel by a
second symbol (plus `MODEL_ELEMENTS - 1 = 21`), and a double escape by an
explicit bit count read via `culshift(5)`. -/
def getOverflow (rc : RangeCoder) : Nat × RangeCoder :=
  let (sym, rc1) := getSymbol rc
  if sym = U32MAX then
    let (overflowHigh, rc2) := getSymbol rc1
    if overflowHigh = U32MAX then
      let (bits, rc3) := decodeCulshift rc2 5
      let rc4 := decodeUpdate rc3 bits 1
      let (value, rc5) := decodeCulshift rc4 bits
      let rc6 := decodeUpdate rc5 value 1
      ((value + (MODEL_ELEMENTS - 1)) % U32M, rc6)
    else
      ((overflowHigh + (MODEL_ELEMENTS - 1)) % U32M, rc2)
  else
    (sym, rc1)

/-- The zigzag step at the end of `decode_value`: odd magnitudes become
positive, even ones non-positive (`as i32` casts wrap). -/
def zigzag (x : Nat) : Int :=
  if x % 2 = 1 then wrap32 ((x >>> 1 : Nat) + 1)
  else wrap32 (-(wrap32 (x >>> 1 : Nat)))

/-- Source `decode_value`: decode one signed residual.  When `pivot < 65536` the
source decodes the base first (inline `culfreq(pivot)` + update) and the
overflow second; otherwise the overflow first and the base in two parts. -/
def decodeValue (rc : RangeCoder) (rice : RiceState) :
    Int × RangeCoder × RiceState :=
  let pivot := rice.pivot
  let (base, overflow, rcOut) :=
    if pivot < 65536 then
      let h := rc.range / pivot
      let b := min (rc.low / h) (pivot - 1)
      let rc1 : RangeCoder :=
        normalize { rc with
          low := (rc.low + U32M - (h * b) % U32M) % U32M,
          range := h, help := h }
      let (o, rc2) := getOverflow rc1
      (b, o, rc2)
    else
      let (o, rc1) := getOverflow rc
      -- pivot_bits = 32 - pivot.leading_zeros() = ilog2(pivot) + 1
      let pivotBits := Nat.log2 pivot + 1
      let shift := pivotBits - 16
      let h := rc1.range >>> 16
      let baseHigh := min (rc1.low / h) 65535
      let rc2 : RangeCoder :=
        normalize { rc1 with
          low := (rc1.low + U32M - (h * baseHigh) % U32M) % U32M,
          range := h, help := h }
      let h2 := rc2.range >>> shift
      let baseLow := min (rc2.low / h2) (2 ^ shift - 1)
      let rc3 : RangeCoder :=
        normalize { rc2 with
          low := (rc2.low + U32M - (h2 * baseLow) % U32M) % U32M,
          range := h2, help := h2 }
      (((baseHigh <<< shift) % U32M) ||| baseLow, o, rc3)
  let x := (base + overflow * pivot) % U32M
  (zigzag x, rcOut, rice.update x)

/-- Division with Rust's panic made explicit: `none` exactly when the
divisor is zero (where a Rust `/` panics). -/
def checkedDiv (a b : Nat) : Option Nat := if b = 0 then none else some (a / b)

/-- `decode_culshift` with the division checked: `none` exactly where the
source's `low / help` would panic, otherwise identical to
`decodeCulshift`. -/
def decodeCulshiftChecked (rc : RangeCoder) (shift : Nat) : Option (Nat × RangeCoder) :=
  let h := rc.range >>> shift
  match checkedDiv rc.low h with
  | none => none
  | some value => some (min value (2 ^ shift - 1), { rc with help := h })

/-- `get_symbol` with the division checked (same branches as
`getSymbol`). -/
def getSymbolChecked (rc : RangeCoder) : Option (Nat × RangeCoder) :=
  match decodeCulshiftChecked rc 16 with
  | none => none
  | some (cf0, rc1) =>
    let cf := cf0 % U16M
    if cf > 65492 then
      some (U32MAX, decodeUpdate rc1 65493 (65536 - 65493))
    else
      let lo := binSearch cf 21 0 (MODEL_ELEMENTS - 1)
      some (lo, decodeUpdate rc1 (counts3980.getD lo 0) (countsDiff3980.getD lo 0))

/-- `get_overflow` with every division checked (same branches as
`getOverflow`; on the double-escape path `decode_culshift(bits)` can meet
`help = range >> bits = 0`, where the source panics). -/
def getOverflowChecked (rc : RangeCoder) : Option (Nat × RangeCoder) :=
  match getSymbolChecked rc with
  | none => none
  | some (sym, rc1) =>
    if sym = U32MAX then
      match getSymbolChecked rc1 with
      | none => none
      | some (overflowHigh, rc2) =>
        if overflowHigh = U32MAX then
          match decodeCulshiftChecked rc2 5 with
          | none => none
          | some (bits, rc3) =>
            match decodeCulshiftChecked (decodeUpdate rc3 bits 1) bits with
            | none => none
            | some (value, rc5) =>
              some ((value + (MODEL_ELEMENTS - 1)) % U32M, decodeUpdate rc5 value 1)
        else
          some ((overflowHigh + (MODEL_ELEMENTS - 1)) % U32M, rc2)
    else
      some (sym, rc1)

/-- `decode_value` with every division checked: returns `none` exactly
where the source would panic with a division by zero, and otherwise
agrees with `decodeValue` step for step. -/
def decodeValueChecked (rc : RangeCoder) (rice : RiceState) :
    Option (Int × RangeCoder × RiceState) :=
  let pivot := rice.pivot
  let step :
      Option (Nat × Nat × RangeCoder) :=
    if pivot < 65536 then
      let h := rc.range / pivot
      match checkedDiv rc.low h with
      | none => none
      | some v =>
        let b := min v (pivot - 1)
        let rc1 : RangeCoder :=
          normalize { rc with
            low := (rc.low + U32M - (h * b) % U32M) % U32M,
            range := h, help := h }
        match getOverflowChecked rc1 with
        | none => none
        | some (o, rc2) => some (b, o, rc2)
    else
      match getOverflowChecked rc with
      | none => none
      | some (o, rc1) =>
        let pivotBits := Nat.log2 pivot + 1
        let shift := pivotBits - 16
        let h := rc1.range >>> 16
        match checkedDiv rc1.low h with
        | none => none
        | some vHigh =>
          let baseHigh := min vHigh 65535
          let rc2 : RangeCoder :=
            normalize { rc1 with
              low := (rc1.low + U32M - (h * baseHigh) % U32M) % U32M,
              range := h, help := h }
          let h2 := rc2.range >>> shift
          match checkedDiv rc2.low h2 with
          | none => none
          | some vLow =>
            let baseLow := min vLow (2 ^ shift - 1)
            let rc3 : RangeCoder :=
              normalize { rc2 with
                low := (rc2.low + U32M - (h2 * baseLow) % U32M) % U32M,
                range := h2, help := h2 }
            some (((baseHigh <<< shift) % U32M) ||| baseLow, o, rc3)
  match step with
  | none => none
  | some (base, overflow, rcOut) =>
    let x := (base + overflow * pivot) % U32M
    some (zigzag x, rcOut, rice.update x)

/-- Modelled from the spec (for claim C1): the spec's symbol decode.  Its
escape branch (`cf > 65492`) yields `symbol = cf - 65535 + 63` by
unsigned `u32` wrap and calls `update(1, cf)` — that is, `lt_f = cf`,
`sy_f = 1` — unlike the source's sentinel scheme.  The non-escape branch
coincides with the source.  Division is checked. -/
def getSymbolSpec (rc : RangeCoder) : Option (Nat × RangeCoder) :=
  match decodeCulshiftChecked rc 16 with
  | none => none
  | some (cf, rc1) =>
    if cf > 65492 then
      some ((cf + U32M - 65535 + 63) % U32M, decodeUpdate rc1 cf 1)
    else
      let lo := binSearch cf 21 0 (MODEL_ELEMENTS - 1)
      some (lo, decodeUpdate rc1 (counts3980.getD lo 0) (countsDiff3980.getD lo 0))

/-- Modelled from the spec (for claim C1): the spec's overflow decode —
a symbol of exactly 63 escapes to two raw 16-bit numbers, each read by
`culshift(16)` followed by `update(1, x)`, combined high||low; every
other symbol value is the overflow count itself. -/
def getOverflowSpec (rc : RangeCoder) : Option (Nat × RangeCoder) :=
  match getSymbolSpec rc with
  | none => none
  | some (o, rc1) =>
    if o = 63 then
      match decodeCulshiftChecked rc1 16 with
      | none => none
      | some (hi, rc2) =>
        match decodeCulshiftChecked (decodeUpdate rc2 hi 1) 16 with
        | none => none
        | some (lo, rc4) =>
          some (((hi <<< 16) ||| lo) % U32M, decodeUpdate rc4 lo 1)
    else
      some (o, rc1)

/-- Modelled from the spec (for claim C1): the residual decode in the
order the specification prescribes — the overflow symbol first (with the
spec's `o = 63` two-16-bit-read escape), then the base: for
`pivot < 0x10000` a single `culfreq(pivot)` followed by
`update(1, base)`, else the spec's `bbits` high/low split.  The
byte-level primitives (`culshift`, `culfreq`, `update`, renormalization)
are the source's, so that on an escape-free input the comparison with
`decodeValue` isolates exactly the decode order; division is checked
(`none` where a Rust implementation would panic). -/
def decodeValueOverflowFirst (rc : RangeCoder) (rice : RiceState) :
    Option (Int × RangeCoder × RiceState) :=
  let pivot := rice.pivot
  match getOverflowSpec rc with
  | none => none
  | some (o, rc1) =>
    let stepBase : Option (Nat × RangeCoder) :=
      if pivot < 65536 then
        let h := rc1.range / pivot
        match checkedDiv rc1.low h with
        | none => none
        | some v =>
          let b := min v (pivot - 1)
          some (b, decodeUpdate { rc1 with help := h } b 1)
      else
        -- smallest bbits with pivot >> bbits < 2^16
        let bbits := (Nat.log2 pivot + 1) - 16
        let hiRange := (pivot >>> bbits) + 1
        let h := rc1.range / hiRange
        match checkedDiv rc1.low h with
        | none => none
        | some vHi =>
          let hi := min vHi (hiRange - 1)
          let rc2 := decodeUpdate { rc1 with help := h } hi 1
          let h2 := rc2.range / (2 ^ bbits)
          match checkedDiv rc2.low h2 with
          | none => none
          | some vLo =>
            let lo := min vLo (2 ^ bbits - 1)
            some (((hi <<< bbits) + lo) % U32M, decodeUpdate { rc2 with help := h2 } lo 1)
    match stepBase with
    | none => none
    | some (base, rcOut) =>
      let x := (base + o * pivot) % U32M
      some (zigzag x, rcOut, rice.update x)

end RangeCoder

end Ape

namespace Ape

/-! ## Lemmas about the Rice state and the range coder primitives -/

/-! ## Claim theorems: range coder and Rice state -/

end Ape

namespace Ape

/-! ## NNFilter (`src/nnfilter.rs`) -/

/-- Filter orders per compression-level set, per stage (`FILTER_ORDERS`). -/
def filterOrders : List (List Nat) :=
  [[0, 0, 0], [16, 0, 0], [64, 0, 0], [32, 256, 0], [16, 256, 1280]]

/-- Fractional bits per compression-level set, per stage (`FILTER_FRACBITS`). -/
def filterFracbits : List (List Nat) :=
  [[0, 0, 0], [11, 0, 0], [11, 0, 0], [10, 13, 0], [11, 13, 15]]

/-- Source `HISTORY_SIZE` of the NNFilter stage ring. -/
def NN_HISTORY_SIZE : Nat := 512

/-- Clamp an `Int` into the `i16` range (`res.clamp(i16::MIN, i16::MAX)`). -/
def clamp16 (z : Int) : Int := max (-32768) (min 32767 z)

/-- Cast of a nonnegative-range `Int` expression to `u32`
(`as u32` on a value already in range after the source's `.max(0)`). -/
def toU32 (z : Int) : Nat := (z % (4294967296 : Int)).toNat

/-- One stage of the adaptive FIR filter (`NNFilterStage`). -/
structure NNFilterStage where
  order : Nat
  fracbits : Nat
  coeffs : List Int
  historybuffer : List Int
  delayPos : Nat
  adaptPos : Nat
  avg : Nat
  deriving Repr, DecidableEq

namespace NNFilterStage

/-- Source `NNFilterStage::new`: zeroed coefficients and history,
`delay_pos = 2·order`, `adapt_pos = order`. -/
def new (order fracbits : Nat) : NNFilterStage :=
  { order := order, fracbits := fracbits,
    coeffs := List.replicate order 0,
    historybuffer := List.replicate (order * 2 + NN_HISTORY_SIZE) 0,
    delayPos := order * 2, adaptPos := order, avg := 0 }

/-- Source `NNFilterStage::reset`. -/
def reset (s : NNFilterStage) : NNFilterStage :=
  { s with coeffs := List.replicate s.coeffs.length 0,
           historybuffer := List.replicate s.historybuffer.length 0,
           delayPos := s.order * 2, adaptPos := s.order, avg := 0 }

/-- The stage's fused dot-product-and-adapt loop: iteration `i` adds
`coeffs[i] * historybuffer[dpo + i]` to the running sum (reading the
coefficient *before* updating it) and then steps
`coeffs[i]` by `(historybuffer[apo + i] as i32 * sign) as i16` with
`i16` wrapping.  `n` counts the remaining iterations, `i` the index. -/
def sumAdaptAux (hist : List Int) (dpo apo : Nat) (sign : Int) :
    Nat → Nat → Int → List Int → Int × List Int
  | 0, _, sum, cs => (sum, cs)
  | n + 1, i, sum, cs =>
    let c := cs.getD i 0
    let sum' := sum + c * hist.getD (dpo + i) 0
    let cs' := cs.set i (wrap16 (c + wrap16 (hist.getD (apo + i) 0 * sign)))
    sumAdaptAux hist dpo apo sign n (i + 1) sum' cs'

/-- The wrap-copy of the first `n` ring entries from `tailStart`
(sequential, exactly as the source's copy loop). -/
def ringCopy (tailStart : Nat) : Nat → Nat → List Int → List Int
  | 0, _, b => b
  | n + 1, i, b => ringCopy tailStart n (i + 1) (b.set i (b.getD (tailStart + i) 0))

/-- Source `NNFilterStage::decompress` for one input sample. -/
def decompress (s : NNFilterStage) (input : Int) : Int × NNFilterStage :=
  if s.order = 0 then (input, s)
  else
    let order := s.order
    let dp := s.delayPos
    let ap := s.adaptPos
    let sign := apesign input
    let sc := sumAdaptAux s.historybuffer (dp - order) (ap - order) sign order 0 0 s.coeffs
    let sum := sc.1
    let coeffs' := sc.2
    -- rounding = 1 << (fracbits - 1); filtered = ((sum + rounding) >> fracbits) as i32
    -- (for fracbits = 0 the Rust shift amount is negative and panics in debug
    -- builds; every constructed stage has fracbits ≥ 10)
    let rounding : Int := 2 ^ (s.fracbits - 1)
    let filtered := wrap32 (sra (sum + rounding) s.fracbits)
    -- res = filtered.wrapping_add(input)
    let res := wrap32 (filtered + input)
    let hist1 := s.historybuffer.set dp (clamp16 res)
    let absres := res.natAbs
    let adaptVal : Int :=
      if absres ≠ 0 then
        let avg3 := s.avg * 3
        let avgPlusThird := s.avg + s.avg / 3
        let shift := (if absres > avg3 then 1 else 0) + (if absres > avgPlusThird then 1 else 0)
        apesign res * (8 <<< shift)
      else 0
    let hist2 := hist1.set ap (wrap16 adaptVal)
    let avg' := toU32 ((s.avg : Int) + Int.tdiv ((absres : Int) - (s.avg : Int)) 16)
    let hist3 := if ap ≥ 1 then hist2.set (ap - 1) (sra (hist2.getD (ap - 1) 0) 1) else hist2
    let hist4 := if ap ≥ 2 then hist3.set (ap - 2) (sra (hist3.getD (ap - 2) 0) 1) else hist3
    let hist5 := if ap ≥ 8 then hist4.set (ap - 8) (sra (hist4.getD (ap - 8) 0) 1) else hist4
    let dp' := dp + 1
    let ap' := ap + 1
    if dp' ≥ order * 2 + NN_HISTORY_SIZE then
      let tailStart := dp' - order * 2
      (res, { s with coeffs := coeffs',
                     historybuffer := ringCopy tailStart (order * 2) 0 hist5,
                     delayPos := order * 2, adaptPos := order, avg := avg' })
    else
      (res, { s with coeffs := coeffs', historybuffer := hist5,
                     delayPos := dp', adaptPos := ap', avg := avg' })

end NNFilterStage

/-- The dot product of the stage's coefficients against its history window
(the `sum` of the source's loop, over the coefficients as they stood at
entry): `n` terms starting at index `i`. -/
def dotWindow (cs hist : List Int) (dpo : Nat) : Nat → Nat → Int
  | 0, _ => 0
  | n + 1, i => cs.getD i 0 * hist.getD (dpo + i) 0 + dotWindow cs hist dpo n (i + 1)

/-- The full dot product `Σ_{i<order} coeffs[i]·history[delay_pos-order+i]`
of a stage state. -/
def stageDot (s : NNFilterStage) : Int :=
  dotWindow s.coeffs s.historybuffer (s.delayPos - s.order) s.order 0

/-- Feed a list of inputs through one stage, keeping the final state. -/
def stageRun (s : NNFilterStage) : List Int → NNFilterStage
  | [] => s
  | x :: xs => stageRun (s.decompress x).2 xs

/-- Multi-stage cascade (`NNFilter::decompress`): stages applied in order,
each stage's output feeding the next. -/
def nnCascade : List NNFilterStage → Int → Int × List NNFilterStage
  | [], v => (v, [])
  | st :: rest, v =>
    let (v1, st') := st.decompress v
    let (v2, rest') := nnCascade rest v1
    (v2, st' :: rest')

/-- Source `NNFilter::new` for a compression-level set index: one stage per
nonzero order. -/
def nnNew (fset : Nat) : List NNFilterStage :=
  (List.range 3).filterMap fun st =>
    let order := (filterOrders.getD fset []).getD st 0
    if order > 0 then
      some (NNFilterStage.new order ((filterFracbits.getD fset []).getD st 0))
    else none

/-- Source `NNFilter::reset`. -/
def nnReset (f : List NNFilterStage) : List NNFilterStage :=
  f.map NNFilterStage.reset

end Ape

namespace Ape

/-! ## Lemmas for the NNFilter stage -/

/-! ## Claim theorems: NNFilter -/

end Ape

namespace Ape

/-! ## Predictor (`src/predictor.rs`) -/

/-- Source `HISTORY_SIZE` of the predictor ring. -/
def PRED_HISTORY_SIZE : Nat := 512

/-- Source `PREDICTOR_SIZE`. -/
def PREDICTOR_SIZE : Nat := 50

/-- Delay offsets relative to the current buffer position. -/
def YDELAYA : Nat := 50

/-- Source `YDELAYB = 42`. -/
def YDELAYB : Nat := 42

/-- Source `XDELAYA = 34`. -/
def XDELAYA : Nat := 34

/-- Source `XDELAYB = 26`. -/
def XDELAYB : Nat := 26

/-- Source `YADAPTCOEFFSA = 18`. -/
def YADAPTCOEFFSA : Nat := 18

/-- Source `XADAPTCOEFFSA = 14`. -/
def XADAPTCOEFFSA : Nat := 14

/-- Source `YADAPTCOEFFSB = 10`. -/
def YADAPTCOEFFSB : Nat := 10

/-- Source `XADAPTCOEFFSB = 5`. -/
def XADAPTCOEFFSB : Nat := 5

/-- Initial filter A coefficients (`INITIAL_COEFFS_A`). -/
def initialCoeffsA : List Int := [360, 317, -109, 98]

/-- Wrapping `i64` addition. -/
def wadd (a b : Int) : Int := wrap64 (a + b)

/-- Wrapping `i64` subtraction. -/
def wsub (a b : Int) : Int := wrap64 (a - b)

/-- Wrapping `i64` multiplication. -/
def wmul (a b : Int) : Int := wrap64 (a * b)

/-- Read a two-element per-channel array at channel `ch` (0 or 1). -/
def ix2 (p : Int × Int) (ch : Nat) : Int := if ch = 0 then p.1 else p.2

/-- Write a two-element per-channel array at channel `ch`. -/
def set2 (p : Int × Int) (ch : Nat) (v : Int) : Int × Int :=
  if ch = 0 then (v, p.2) else (p.1, v)

/-- Read a per-channel coefficient list. -/
def ixc (p : List Int × List Int) (ch : Nat) : List Int := if ch = 0 then p.1 else p.2

/-- Write a per-channel coefficient list. -/
def setc (p : List Int × List Int) (ch : Nat) (v : List Int) : List Int × List Int :=
  if ch = 0 then (v, p.2) else (p.1, v)

/-- The APE predictor state (`Predictor`). -/
structure Predictor where
  buf : List Int
  bufPos : Nat
  lastA : Int × Int
  filterA : Int × Int
  filterB : Int × Int
  coeffsA : List Int × List Int
  coeffsB : List Int × List Int
  deriving Repr, DecidableEq

namespace Predictor

/-- Source `Predictor::new`. -/
def new : Predictor :=
  { buf := List.replicate (PRED_HISTORY_SIZE + PREDICTOR_SIZE) 0,
    bufPos := 0,
    lastA := (0, 0), filterA := (0, 0), filterB := (0, 0),
    coeffsA := (initialCoeffsA, initialCoeffsA),
    coeffsB := (List.replicate 5 0, List.replicate 5 0) }

/-- Source `Predictor::reset`: zero the ring (`fill(0)` keeps its length) and
restore the initial coefficients. -/
def reset (p : Predictor) : Predictor :=
  { p with buf := List.replicate p.buf.length 0,
           bufPos := 0,
           lastA := (0, 0), filterA := (0, 0), filterB := (0, 0),
           coeffsA := (initialCoeffsA, initialCoeffsA),
           coeffsB := (List.replicate 5 0, List.replicate 5 0) }

/-- The sequential copy `buf[i] = buf[buf_pos + i]` for `i < n`. -/
def bufCopy (srcStart : Nat) : Nat → Nat → List Int → List Int
  | 0, _, b => b
  | n + 1, i, b => bufCopy srcStart n (i + 1) (b.set i (b.getD (srcStart + i) 0))

/-- The zeroing loop `buf[i] = 0` for `start ≤ i`, `n` entries. -/
def zeroFrom : Nat → Nat → List Int → List Int
  | 0, _, b => b
  | n + 1, i, b => zeroFrom n (i + 1) (b.set i 0)

/-- Advance `buf_pos`, and on reaching `HISTORY_SIZE` copy the last
`PREDICTOR_SIZE` entries to the front, zero the remainder and reset
`buf_pos` to 0 (the wrap step shared verbatim by `decode_mono` and
`decode_stereo`). -/
def advanceBuf (p : Predictor) : Predictor :=
  let bp1 := p.bufPos + 1
  if bp1 ≥ PRED_HISTORY_SIZE then
    let copied := bufCopy bp1 PREDICTOR_SIZE 0 p.buf
    { p with buf := zeroFrom (copied.length - PREDICTOR_SIZE) PREDICTOR_SIZE copied,
             bufPos := 0 }
  else
    { p with bufPos := bp1 }

/-- Source `Predictor::decode_mono`. -/
def decodeMono (p : Predictor) (input : Int) : Int × Predictor :=
  let a := input
  let bp := p.bufPos
  -- write current prediction to the delay line, then the delta
  let b1 := p.buf.set (bp + YDELAYA) (ix2 p.lastA 0)
  let b2 := b1.set (bp + YDELAYA - 1)
    (wsub (b1.getD (bp + YDELAYA) 0) (b1.getD (bp + YDELAYA - 1) 0))
  let ca := ixc p.coeffsA 0
  let predictionA :=
    wadd (wadd (wadd (wmul (b2.getD (bp + YDELAYA) 0) (ca.getD 0 0))
                     (wmul (b2.getD (bp + YDELAYA - 1) 0) (ca.getD 1 0)))
               (wmul (b2.getD (bp + YDELAYA - 2) 0) (ca.getD 2 0)))
         (wmul (b2.getD (bp + YDELAYA - 3) 0) (ca.getD 3 0))
  let currentA := wadd a (sra predictionA 10)
  let lastA' := set2 p.lastA 0 currentA
  -- adaptation signs
  let b3 := b2.set (bp + YADAPTCOEFFSA) (apesign (b2.getD (bp + YDELAYA) 0))
  let b4 := b3.set (bp + YADAPTCOEFFSA - 1) (apesign (b3.getD (bp + YDELAYA - 1) 0))
  -- coefficient adaptation
  let sign := apesign a
  let ca' :=
    if sign ≠ 0 then
      (((ca.set 0 (wadd (ca.getD 0 0) (wmul (b4.getD (bp + YADAPTCOEFFSA) 0) sign))).set
          1 (wadd (ca.getD 1 0) (wmul (b4.getD (bp + YADAPTCOEFFSA - 1) 0) sign))).set
          2 (wadd (ca.getD 2 0) (wmul (b4.getD (bp + YADAPTCOEFFSA - 2) 0) sign))).set
          3 (wadd (ca.getD 3 0) (wmul (b4.getD (bp + YADAPTCOEFFSA - 3) 0) sign))
    else ca
  let p1 := advanceBuf { p with buf := b4, lastA := lastA', coeffsA := setc p.coeffsA 0 ca' }
  -- IIR feedback
  let fa := wadd currentA (sra (wmul (ix2 p.filterA 0) 31) 5)
  let p2 := { p1 with filterA := set2 p.filterA 0 fa }
  (wrap32 fa, p2)

/-- Source `Predictor::update_filter` (the stereo per-channel step). -/
def updateFilter (p : Predictor) (decoded : Int) (ch delayA delayB adaptA adaptB : Nat) :
    Int × Predictor :=
  let bp := p.bufPos
  -- filter A: own-channel prediction
  let b1 := p.buf.set (bp + delayA) (ix2 p.lastA ch)
  let b2 := b1.set (bp + adaptA) (apesign (b1.getD (bp + delayA) 0))
  let b3 := b2.set (bp + delayA - 1)
    (wsub (b2.getD (bp + delayA) 0) (b2.getD (bp + delayA - 1) 0))
  let b4 := b3.set (bp + adaptA - 1) (apesign (b3.getD (bp + delayA - 1) 0))
  let ca := ixc p.coeffsA ch
  let predictionA :=
    wadd (wadd (wadd (wmul (b4.getD (bp + delayA) 0) (ca.getD 0 0))
                     (wmul (b4.getD (bp + delayA - 1) 0) (ca.getD 1 0)))
               (wmul (b4.getD (bp + delayA - 2) 0) (ca.getD 2 0)))
         (wmul (b4.getD (bp + delayA - 3) 0) (ca.getD 3 0))
  -- filter B: cross-channel prediction
  let b5 := b4.set (bp + delayB)
    (wsub (ix2 p.filterA (ch ^^^ 1)) (sra (wmul (ix2 p.filterB ch) 31) 5))
  let b6 := b5.set (bp + adaptB) (apesign (b5.getD (bp + delayB) 0))
  let b7 := b6.set (bp + delayB - 1)
    (wsub (b6.getD (bp + delayB) 0) (b6.getD (bp + delayB - 1) 0))
  let b8 := b7.set (bp + adaptB - 1) (apesign (b7.getD (bp + delayB - 1) 0))
  let filterB' := set2 p.filterB ch (ix2 p.filterA (ch ^^^ 1))
  let cb := ixc p.coeffsB ch
  let predictionB :=
    wadd (wadd (wadd (wadd (wmul (b8.getD (bp + delayB) 0) (cb.getD 0 0))
                           (wmul (b8.getD (bp + delayB - 1) 0) (cb.getD 1 0)))
                     (wmul (b8.getD (bp + delayB - 2) 0) (cb.getD 2 0)))
               (wmul (b8.getD (bp + delayB - 3) 0) (cb.getD 3 0)))
         (wmul (b8.getD (bp + delayB - 4) 0) (cb.getD 4 0))
  -- reconstruct
  let lastCh := wadd decoded (sra (wadd predictionA (sra predictionB 1)) 10)
  let lastA' := set2 p.lastA ch lastCh
  -- IIR feedback
  let faCh := wadd lastCh (sra (wmul (ix2 p.filterA ch) 31) 5)
  let filterA' := set2 p.filterA ch faCh
  -- coefficient adaptation
  let sign := apesign decoded
  let ca' :=
    if sign ≠ 0 then
      (((ca.set 0 (wadd (ca.getD 0 0) (wmul (b8.getD (bp + adaptA) 0) sign))).set
          1 (wadd (ca.getD 1 0) (wmul (b8.getD (bp + adaptA - 1) 0) sign))).set
          2 (wadd (ca.getD 2 0) (wmul (b8.getD (bp + adaptA - 2) 0) sign))).set
          3 (wadd (ca.getD 3 0) (wmul (b8.getD (bp + adaptA - 3) 0) sign))
    else ca
  let cb' :=
    if sign ≠ 0 then
      ((((cb.set 0 (wadd (cb.getD 0 0) (wmul (b8.getD (bp + adaptB) 0) sign))).set
          1 (wadd (cb.getD 1 0) (wmul (b8.getD (bp + adaptB - 1) 0) sign))).set
          2 (wadd (cb.getD 2 0) (wmul (b8.getD (bp + adaptB - 2) 0) sign))).set
          3 (wadd (cb.getD 3 0) (wmul (b8.getD (bp + adaptB - 3) 0) sign))).set
          4 (wadd (cb.getD 4 0) (wmul (b8.getD (bp + adaptB - 4) 0) sign))
    else cb
  (faCh,
   { p with buf := b8, lastA := lastA', filterA := filterA', filterB := filterB',
            coeffsA := setc p.coeffsA ch ca', coeffsB := setc p.coeffsB ch cb' })

/-- Source `Predictor::decode_stereo`: Y channel (0) first, then X channel (1),
one shared buffer advance, then the inverse decorrelation. -/
def decodeStereo (p : Predictor) (inputY inputX : Int) : (Int × Int) × Predictor :=
  let r1 := updateFilter p inputY 0 YDELAYA YDELAYB YADAPTCOEFFSA YADAPTCOEFFSB
  let decodedY := r1.1
  let r2 := updateFilter r1.2 inputX 1 XDELAYA XDELAYB XADAPTCOEFFSA XADAPTCOEFFSB
  let decodedX := r2.1
  let p3 := advanceBuf r2.2
  -- left = decoded_x.wrapping_sub(decoded_y / 2) as i32
  let left := wrap32 (wsub decodedX (Int.tdiv decodedY 2))
  -- right = left.wrapping_add(decoded_y as i32)
  let right := wrap32 (left + wrap32 decodedY)
  ((left, right), p3)

end Predictor

end Ape

namespace Ape

/-! ## Lemmas for the predictor -/

/-- Well-formedness of a predictor state: full-size ring, cursor inside
the history window. -/
def wfPred (p : Predictor) : Prop :=
  p.buf.length = PRED_HISTORY_SIZE + PREDICTOR_SIZE ∧ p.bufPos < PRED_HISTORY_SIZE

/-! ## Claim theorems: predictor -/

end Ape

namespace Ape

/-! ## Errors (`src/error.rs`; string and I/O payloads elided — no claim
depends on them) -/

/-- The decoder error taxonomy. -/
inductive ApeError where
  | invalidMagic
  | unsupportedVersion (v : Nat)
  | unsupportedCompressionLevel (l : Nat)
  | invalidHeader
  | invalidSeekTable
  | crcMismatch
  | rangeCoderError
  | unexpectedEof
  | io
  deriving Repr, DecidableEq

/-! ## Byte source (`Read + Seek`): a byte list with a cursor.  Every read
the decoder performs is either sequential or preceded by an absolute
`seek`, which this model reproduces exactly. -/

/-- A seekable byte source. -/
structure Reader where
  file : List Nat
  rpos : Nat
  deriving Repr, DecidableEq

namespace Reader

/-- Source `seek(SeekFrom::Start(n))`. -/
def seek (r : Reader) (n : Nat) : Reader := { r with rpos := n }

/-- Source `read_exact` of `n` bytes: fails with a wrapped I/O error
(`ErrorKind::UnexpectedEof`) if fewer than `n` bytes remain. -/
def readExact (r : Reader) (n : Nat) : Except ApeError (List Nat × Reader) :=
  if r.rpos + n ≤ r.file.length then
    .ok ((r.file.drop r.rpos).take n, { r with rpos := r.rpos + n })
  else
    .error .io

/-- Source `read_u16_le`. -/
def readU16 (r : Reader) : Except ApeError (Nat × Reader) :=
  match r.readExact 2 with
  | .error e => .error e
  | .ok (b, r') => .ok (b.getD 0 0 + 256 * b.getD 1 0, r')

/-- Source `read_u32_le`. -/
def readU32 (r : Reader) : Except ApeError (Nat × Reader) :=
  match r.readExact 4 with
  | .error e => .error e
  | .ok (b, r') =>
    .ok (b.getD 0 0 + 256 * b.getD 1 0 + 65536 * b.getD 2 0 + 16777216 * b.getD 3 0, r')

end Reader

/-! ## File header (`src/header.rs`) -/

/-- Source `ApeDescriptor`. -/
structure ApeDescriptor where
  version : Nat
  descriptorBytes : Nat
  headerBytes : Nat
  seekTableBytes : Nat
  headerDataBytes : Nat
  apeFrameDataBytes : Nat
  apeFrameDataBytesHigh : Nat
  terminatingDataBytes : Nat
  fileMd5 : List Nat
  deriving Repr, DecidableEq

/-- Source `ApeHeader`. -/
structure ApeHeader where
  compressionLevel : Nat
  formatFlags : Nat
  blocksPerFrame : Nat
  finalFrameBlocks : Nat
  totalFrames : Nat
  bitsPerSample : Nat
  channels : Nat
  sampleRate : Nat
  deriving Repr, DecidableEq

/-- Source `ApeFileHeader`. -/
structure ApeFileHeader where
  descriptor : ApeDescriptor
  header : ApeHeader
  seekTable : List Nat
  dataOffset : Nat
  deriving Repr, DecidableEq

/-- Source `ApeFileHeader::total_blocks`. -/
def totalBlocks (h : ApeFileHeader) : Nat :=
  if h.header.totalFrames = 0 then 0
  else (h.header.totalFrames - 1) * h.header.blocksPerFrame + h.header.finalFrameBlocks

/-- Source `ApeFileHeader::total_samples`. -/
def totalSamples (h : ApeFileHeader) : Nat := totalBlocks h * h.header.channels

/-- The APE magic bytes `"MAC "`. -/
def APE_MAGIC : List Nat := [77, 65, 67, 32]

/-- Source `find_magic`: accept the magic at offset 0, or skip one leading ID3v2
tag (sync-safe 28-bit size) and try again. -/
def findMagic (r : Reader) : Except ApeError (Nat × Reader) :=
  match r.readExact 4 with
  | .error e => .error e
  | .ok (buf, r1) =>
    if buf = APE_MAGIC then .ok (0, r1)
    else if buf.take 3 = [73, 68, 51] then
      match r1.readExact 6 with
      | .error e => .error e
      | .ok (id3, r2) =>
        let size := (id3.getD 2 0) <<< 21 ||| (id3.getD 3 0) <<< 14
          ||| (id3.getD 4 0) <<< 7 ||| id3.getD 5 0
        let offset := 10 + size
        match (r2.seek offset).readExact 4 with
        | .error e => .error e
        | .ok (buf2, r3) =>
          if buf2 = APE_MAGIC then .ok (offset, r3) else .error .invalidMagic
    else .error .invalidMagic

/-- Source `read_descriptor` (after the 4 magic bytes). -/
def readDescriptor (r : Reader) : Except ApeError (ApeDescriptor × Reader) :=
  match r.readU16 with
  | .error e => .error e
  | .ok (version, r1) =>
    if version < 3990 then .error (.unsupportedVersion version)
    else
      match r1.readExact 2 with
      | .error e => .error e
      | .ok (_, r2) =>
        match r2.readU32 with
        | .error e => .error e
        | .ok (descriptorBytes, r3) =>
          match r3.readU32 with
          | .error e => .error e
          | .ok (headerBytes, r4) =>
            match r4.readU32 with
            | .error e => .error e
            | .ok (seekTableBytes, r5) =>
              match r5.readU32 with
              | .error e => .error e
              | .ok (headerDataBytes, r6) =>
                match r6.readU32 with
                | .error e => .error e
                | .ok (apeFrameDataBytes, r7) =>
                  match r7.readU32 with
                  | .error e => .error e
                  | .ok (apeFrameDataBytesHigh, r8) =>
                    match r8.readU32 with
                    | .error e => .error e
                    | .ok (terminatingDataBytes, r9) =>
                      match r9.readExact 16 with
                      | .error e => .error e
                      | .ok (fileMd5, r10) =>
                        .ok ({ version := version,
                               descriptorBytes := descriptorBytes,
                               headerBytes := headerBytes,
                               seekTableBytes := seekTableBytes,
                               headerDataBytes := headerDataBytes,
                               apeFrameDataBytes := apeFrameDataBytes,
                               apeFrameDataBytesHigh := apeFrameDataBytesHigh,
                               terminatingDataBytes := terminatingDataBytes,
                               fileMd5 := fileMd5 }, r10)

/-- Source `read_header` (24 bytes, with the source's validation). -/
def readHeader (r : Reader) : Except ApeError (ApeHeader × Reader) :=
  match r.readU16 with
  | .error e => .error e
  | .ok (compressionLevel, r1) =>
    match r1.readU16 with
    | .error e => .error e
    | .ok (formatFlags, r2) =>
      match r2.readU32 with
      | .error e => .error e
      | .ok (blocksPerFrame, r3) =>
        match r3.readU32 with
        | .error e => .error e
        | .ok (finalFrameBlocks, r4) =>
          match r4.readU32 with
          | .error e => .error e
          | .ok (totalFrames, r5) =>
            match r5.readU16 with
            | .error e => .error e
            | .ok (bitsPerSample, r6) =>
              match r6.readU16 with
              | .error e => .error e
              | .ok (channels, r7) =>
                match r7.readU32 with
                | .error e => .error e
                | .ok (sampleRate, r8) =>
                  if channels = 0 ∨ channels > 2 then .error .invalidHeader
                  else if bitsPerSample ≠ 8 ∧ bitsPerSample ≠ 16 ∧ bitsPerSample ≠ 24 then
                    .error .invalidHeader
                  else if compressionLevel ≠ 1000 ∧ compressionLevel ≠ 2000 ∧
                      compressionLevel ≠ 3000 ∧ compressionLevel ≠ 4000 ∧
                      compressionLevel ≠ 5000 then
                    .error (.unsupportedCompressionLevel compressionLevel)
                  else
                    .ok ({ compressionLevel := compressionLevel,
                           formatFlags := formatFlags,
                           blocksPerFrame := blocksPerFrame,
                           finalFrameBlocks := finalFrameBlocks,
                           totalFrames := totalFrames,
                           bitsPerSample := bitsPerSample,
                           channels := channels,
                           sampleRate := sampleRate }, r8)

/-- Source `read_seek_table`: `seek_table_bytes / 4` little-endian `u32` entries. -/
def readSeekTableAux : Nat → Reader → List Nat → Except ApeError (List Nat × Reader)
  | 0, r, acc => .ok (acc.reverse, r)
  | n + 1, r, acc =>
    match r.readU32 with
    | .error e => .error e
    | .ok (v, r') => readSeekTableAux n r' (v :: acc)

/-- Source `parse_header`: magic scan, descriptor, header, seek table, data
offset. -/
def parseHeader (r : Reader) : Except ApeError (ApeFileHeader × Reader) :=
  match findMagic r with
  | .error e => .error e
  | .ok (descStart, r1) =>
    match readDescriptor r1 with
    | .error e => .error e
    | .ok (descriptor, r2) =>
      match readHeader (r2.seek (descStart + descriptor.descriptorBytes)) with
      | .error e => .error e
      | .ok (header, r4) =>
        let seekTableStart := descStart + descriptor.descriptorBytes + descriptor.headerBytes
        match readSeekTableAux (descriptor.seekTableBytes / 4)
            (r4.seek seekTableStart) [] with
        | .error e => .error e
        | .ok (seekTable, r6) =>
          let dataOffset := seekTableStart + descriptor.seekTableBytes
            + descriptor.headerDataBytes
          .ok ({ descriptor := descriptor, header := header,
                 seekTable := seekTable, dataOffset := dataOffset }, r6)

end Ape

namespace Ape

/-! ## Sample buffer (`src/buffer.rs`) -/

/-- FIFO of decoded samples with a read cursor. -/
structure SampleBuffer where
  samples : List Int
  pos : Nat
  deriving Repr, DecidableEq

namespace SampleBuffer

/-- Source `SampleBuffer::new`. -/
def new : SampleBuffer := { samples := [], pos := 0 }

/-- Source `push`. -/
def push (b : SampleBuffer) (s : Int) : SampleBuffer :=
  { b with samples := b.samples ++ [s] }

/-- Source `push_stereo`. -/
def pushStereo (b : SampleBuffer) (l r : Int) : SampleBuffer :=
  { b with samples := b.samples ++ [l, r] }

/-- Source `next_sample`. -/
def nextSample (b : SampleBuffer) : Option (Int × SampleBuffer) :=
  if b.pos < b.samples.length then
    some (b.samples.getD b.pos 0, { b with pos := b.pos + 1 })
  else none

/-- Source `clear`. -/
def clear (_b : SampleBuffer) : SampleBuffer := { samples := [], pos := 0 }

end SampleBuffer

/-! ## Frame decoder (`src/decode.rs`) -/

/-- Decoder state (`Decoder<R>`). -/
structure Decoder where
  reader : Reader
  header : ApeFileHeader
  currentFrame : Nat
  finished : Bool
  buffer : SampleBuffer
  filters : List (List NNFilterStage)
  predictor : Predictor
  fset : Nat
  deriving Repr, DecidableEq

namespace Decoder

/-- Source `Decoder::new`: one `NNFilter` per channel, set index
`(level / 1000) - 1`. -/
def new (r : Reader) (h : ApeFileHeader) : Decoder :=
  let fset := h.header.compressionLevel / 1000 - 1
  { reader := r, header := h, currentFrame := 0, finished := false,
    buffer := SampleBuffer.new,
    filters := List.replicate h.header.channels (nnNew fset),
    predictor := Predictor.new, fset := fset }

/-- Source `Decoder::next_sample`. -/
def nextSample (d : Decoder) : Option (Int × Decoder) :=
  match d.buffer.nextSample with
  | none => none
  | some (s, b') => some (s, { d with buffer := b' })

/-- Swap two byte positions of a list. -/
def swapAt (l : List Nat) (i j : Nat) : List Nat :=
  let a := l.getD i 0
  let b := l.getD j 0
  (l.set i b).set j a

/-- The per-word byte swap `(0↔3, 1↔2)` over the first `n` aligned words. -/
def bswapLoop : Nat → Nat → List Nat → List Nat
  | 0, _, l => l
  | n + 1, i, l =>
    bswapLoop n (i + 1) (swapAt (swapAt l (4 * i) (4 * i + 3)) (4 * i + 1) (4 * i + 2))

/-- Source `read_frame_data` as a function of the file contents, the parsed
header and the frame index (the source seeks to an absolute position
before reading, so the prior cursor is irrelevant); returns the
byte-swapped frame bytes and the final cursor. -/
def readFrameDataPure (file : List Nat) (h : ApeFileHeader) (frameIdx : Nat) :
    Except ApeError (List Nat) × Nat :=
  if frameIdx ≥ h.seekTable.length then (.error .invalidSeekTable, 0)
  else
    -- start = seek_table[i] & !3
    let start := h.seekTable.getD frameIdx 0 &&& 4294967292
    let endPos :=
      if frameIdx + 1 < h.seekTable.length then h.seekTable.getD (frameIdx + 1) 0
      else h.dataOffset + (h.descriptor.apeFrameDataBytes
        ||| (h.descriptor.apeFrameDataBytesHigh <<< 32))
    -- (end - start) as usize, u64 wrapping
    let size := (endPos + U64M - start % U64M) % U64M
    if size = 0 then (.error .unexpectedEof, start)
    else if start + size ≤ file.length then
      let data := (file.drop start).take size
      (.ok (bswapLoop (size / 4) 0 data), start + size)
    else (.error .io, start)

/-- Source `skip_frame_header`: alignment skip, big-endian CRC, optional frame
flags, one discarded byte. -/
def skipFrameHeaderPure (h : ApeFileHeader) (frameIdx : Nat) (frameData : List Nat) :
    Except ApeError (List Nat) :=
  let alignSkip := h.seekTable.getD frameIdx 0 % 4
  let pos := alignSkip
  if pos + 4 > frameData.length then .error .unexpectedEof
  else
    let crc := frameData.getD pos 0 <<< 24 ||| frameData.getD (pos + 1) 0 <<< 16
      ||| frameData.getD (pos + 2) 0 <<< 8 ||| frameData.getD (pos + 3) 0
    let pos := pos + 4
    if crc ≥ 2147483648 then
      if pos + 4 > frameData.length then .error .unexpectedEof
      else
        let pos := pos + 4
        if pos ≥ frameData.length then .error .unexpectedEof
        else .ok (frameData.drop (pos + 1))
    else
      if pos ≥ frameData.length then .error .unexpectedEof
      else .ok (frameData.drop (pos + 1))

/-- The mono block loop of `decode_frame_mono`: range-decode, NNFilter,
predictor, push. -/
def monoLoop : Nat → RangeCoder → RiceState → List NNFilterStage → Predictor →
    SampleBuffer → List NNFilterStage × Predictor × SampleBuffer
  | 0, _, _, f, p, b => (f, p, b)
  | n + 1, rc, rice, f, p, b =>
    let r := rc.decodeValue rice
    let residual := r.1
    let fc := nnCascade f residual
    let pd := p.decodeMono fc.1
    monoLoop n r.2.1 r.2.2 fc.2 pd.2 (b.push pd.1)

/-- The stereo block loop of `decode_frame_stereo`: Y then X residual,
per-channel NNFilter, stereo predictor, push pair. -/
def stereoLoop : Nat → RangeCoder → RiceState → RiceState → List NNFilterStage →
    List NNFilterStage → Predictor → SampleBuffer →
    List NNFilterStage × List NNFilterStage × Predictor × SampleBuffer
  | 0, _, _, _, f0, f1, p, b => (f0, f1, p, b)
  | n + 1, rc, riceY, riceX, f0, f1, p, b =>
    let ry := rc.decodeValue riceY
    let fy := nnCascade f0 ry.1
    let rx := ry.2.1.decodeValue riceX
    let fx := nnCascade f1 rx.1
    let pd := p.decodeStereo fy.1 fx.1
    stereoLoop n rx.2.1 ry.2.2 rx.2.2 fy.2 fx.2 pd.2
      (b.pushStereo pd.1.1 pd.1.2)

/-- Source `decode_frame_mono` (the decode itself is total; only the frame-header
skip can fail). -/
def decodeFrameMono (d : Decoder) (frameData : List Nat) (nblocks : Nat) :
    Except ApeError Decoder :=
  match skipFrameHeaderPure d.header d.currentFrame frameData with
  | .error e => .error e
  | .ok data =>
    let rc := RangeCoder.new data
    let res := monoLoop nblocks rc RiceState.new (d.filters.getD 0 []) d.predictor d.buffer
    .ok { d with filters := d.filters.set 0 res.1,
                 predictor := res.2.1, buffer := res.2.2 }

/-- Source `decode_frame_stereo`. -/
def decodeFrameStereo (d : Decoder) (frameData : List Nat) (nblocks : Nat) :
    Except ApeError Decoder :=
  match skipFrameHeaderPure d.header d.currentFrame frameData with
  | .error e => .error e
  | .ok data =>
    let rc := RangeCoder.new data
    let res := stereoLoop nblocks rc RiceState.new RiceState.new
      (d.filters.getD 0 []) (d.filters.getD 1 []) d.predictor d.buffer
    .ok { d with filters := (d.filters.set 0 res.1).set 1 res.2.1,
                 predictor := res.2.2.1, buffer := res.2.2.2 }

/-- The block count of frame `i`: `final_frame_blocks` for the last
frame, `blocks_per_frame` otherwise. -/
def nblocksOf (h : ApeFileHeader) (i : Nat) : Nat :=
  if i = h.header.totalFrames - 1 then h.header.finalFrameBlocks
  else h.header.blocksPerFrame

/-- Source `decode_next_frame`: the `Result` and the decoder state after the call
(the source mutates `self` also on error paths). -/
def decodeNextFrame (d : Decoder) : Except ApeError Bool × Decoder :=
  if d.currentFrame ≥ d.header.header.totalFrames then
    (.ok false, { d with finished := true })
  else
    let nblocks := nblocksOf d.header d.currentFrame
    if nblocks = 0 then (.ok false, { d with finished := true })
    else
      match readFrameDataPure d.reader.file d.header d.currentFrame with
      | (.error e, p) => (.error e, { d with reader := { d.reader with rpos := p } })
      | (.ok frameData, p) =>
        let d1 : Decoder :=
          { d with reader := { d.reader with rpos := p },
                   filters := d.filters.map nnReset,
                   predictor := d.predictor.reset,
                   buffer := d.buffer.clear }
        match (if d.header.header.channels = 1 then d1.decodeFrameMono frameData nblocks
               else d1.decodeFrameStereo frameData nblocks) with
        | .error e => (.error e, d1)
        | .ok d2 => (.ok true, { d2 with currentFrame := d.currentFrame + 1 })

end Decoder

/-! ## Sample iterator (`src/lib.rs`, `ApeSamples::next`) -/

/-- Source `ApeSamples::next`: drain the buffer; if exhausted and not finished,
decode the next frame; an error surfaces as `some (error e)`. -/
def iterNext (d : Decoder) : Option (Except ApeError Int) × Decoder :=
  match d.nextSample with
  | some (s, d') => (some (.ok s), d')
  | none =>
    if d.finished then (none, d)
    else
      match d.decodeNextFrame with
      | (.ok true, d') =>
        match d'.nextSample with
        | some (s, d'') => (some (.ok s), d'')
        | none => (none, d')
      | (.ok false, d') => (none, d')
      | (.error e, d') => (some (.error e), d')

/-- Collect the iterator's items until it yields `none` (or fuel runs
out): one `Option` probe per fuel unit. -/
def iterRun : Nat → Decoder → List (Except ApeError Int)
  | 0, _ => []
  | fuel + 1, d =>
    match iterNext d with
    | (none, _) => []
    | (some x, d') => x :: iterRun fuel d'

/-- Source `ApeReader::new` followed by `samples()`: parse the header, build the
decoder. -/
def apeReaderNew (file : List Nat) : Except ApeError Decoder :=
  match parseHeader { file := file, rpos := 0 } with
  | .error e => .error e
  | .ok (h, r) => .ok (Decoder.new r h)

end Ape

namespace Ape

/-! ## Concrete files for the iterator claims -/

/-- A minimal parseable APE file: v3990, level 1000, mono, 16-bit,
`total_frames = 1`, `blocks_per_frame = final_frame_blocks = 10`, but an
*empty* seek table — every frame decode fails with `InvalidSeekTable`. -/
def fileC2 : List Nat :=
  [77, 65, 67, 32, 150, 15, 0, 0, 52, 0, 0, 0, 24, 0, 0, 0, 0, 0, 0, 0,
   0, 0, 0, 0, 0, 0, 0, 0, 0, 0, 0, 0, 0, 0, 0, 0, 0, 0, 0, 0, 0, 0, 0, 0,
   0, 0, 0, 0, 0, 0, 0, 0, 232, 3, 0, 0, 10, 0, 0, 0, 10, 0, 0, 0,
   1, 0, 0, 0, 16, 0, 1, 0, 68, 172, 0, 0]

/-- A parseable APE file with `total_frames = 2`, `blocks_per_frame = 0`,
`final_frame_blocks = 5`, mono: decoding terminates immediately (frame 0
has zero blocks) without any error, producing zero samples. -/
def fileC6X : List Nat :=
  [77, 65, 67, 32, 150, 15, 0, 0, 52, 0, 0, 0, 24, 0, 0, 0, 8, 0, 0, 0,
   0, 0, 0, 0, 0, 0, 0, 0, 0, 0, 0, 0, 0, 0, 0, 0, 0, 0, 0, 0, 0, 0, 0, 0,
   0, 0, 0, 0, 0, 0, 0, 0, 232, 3, 0, 0, 0, 0, 0, 0, 5, 0, 0, 0,
   2, 0, 0, 0, 16, 0, 1, 0, 68, 172, 0, 0, 84, 0, 0, 0, 84, 0, 0, 0]

/-- A parseable APE file with `total_frames = 0`: the iterator terminates
at once with zero samples. -/
def fileC6W : List Nat :=
  [77, 65, 67, 32, 150, 15, 0, 0, 52, 0, 0, 0, 24, 0, 0, 0, 0, 0, 0, 0,
   0, 0, 0, 0, 0, 0, 0, 0, 0, 0, 0, 0, 0, 0, 0, 0, 0, 0, 0, 0, 0, 0, 0, 0,
   0, 0, 0, 0, 0, 0, 0, 0, 232, 3, 0, 0, 0, 0, 0, 0, 0, 0, 0, 0,
   0, 0, 0, 0, 16, 0, 1, 0, 68, 172, 0, 0]

/-- Placeholder header for the impossible error branch of `decoderOf`. -/
def hdrDummy : ApeFileHeader :=
  { descriptor := ⟨0, 0, 0, 0, 0, 0, 0, 0, []⟩,
    header := ⟨0, 0, 0, 0, 0, 0, 0, 0⟩, seekTable := [], dataOffset := 0 }

/-- The decoder obtained from `ApeReader::new` on a concrete file. -/
def decoderOf (file : List Nat) : Decoder :=
  match apeReaderNew file with
  | .ok d => d
  | .error _ => Decoder.new { file := [], rpos := 0 } hdrDummy

/-! ## Lemmas for the sample iterator -/

end Ape

namespace Ape

end Ape

namespace Ape

end Ape

namespace Ape

end Ape

namespace Ape

/-! ## Counting machinery for the sample-count claim -/

/-- Samples still readable from the buffer. -/
def bufRemaining (d : Decoder) : Nat := d.buffer.samples.length - d.buffer.pos

/-- Blocks the decode loop will produce from frame `i` on (matching the
execution when every non-final frame has nonzero blocks). -/
def blocksFrom (h : ApeFileHeader) (i : Nat) : Nat :=
  if i < h.header.totalFrames then
    (h.header.totalFrames - 1 - i) * h.header.blocksPerFrame + h.header.finalFrameBlocks
  else 0

/-- Samples the iterator will still produce from a decoder state. -/
def remainingCount (d : Decoder) : Nat :=
  bufRemaining d + d.header.header.channels * blocksFrom d.header d.currentFrame

/-- Frame `i` of the file decodes without error (its data read and its
frame-header skip both succeed; the block loop itself is total). -/
def frameOkB (file : List Nat) (h : ApeFileHeader) (i : Nat) : Bool :=
  match Decoder.readFrameDataPure file h i with
  | (.error _, _) => false
  | (.ok fd, _) =>
    match Decoder.skipFrameHeaderPure h i fd with
    | .error _ => false
    | .ok _ => true

end Ape

namespace Ape

end Ape

namespace Ape

end Ape

namespace Ape

end Ape

namespace Ape

/-- The parsed header and reader of `fileC6W`. -/
def parsedC6W : ApeFileHeader × Reader :=
  match parseHeader { file := fileC6W, rpos := 0 } with
  | .ok hr => hr
  | .error _ => (hdrDummy, { file := [], rpos := 0 })

/-- The parsed header and reader of `fileC6X`. -/
def parsedC6X : ApeFileHeader × Reader :=
  match parseHeader { file := fileC6X, rpos := 0 } with
  | .ok hr => hr
  | .error _ => (hdrDummy, { file := [], rpos := 0 })

end Ape


namespace Ape

/-- One update keeps `k ≤ 24`: the increment branch is guarded by `k < 24`. -/
theorem RiceState.update_k_le (s : RiceState) (x : Nat) (h : s.k ≤ 24) :
    (s.update x).k ≤ 24 := by
  unfold RiceState.update
  dsimp only
  split
  · omega
  · split <;> omega


/-- The binary search of `get_symbol` returns an index that is at most `hi`
and whose cumulative count is at most `cf`, given enough fuel. -/
theorem binSearch_invariant (cf : Nat) :
    ∀ fuel lo hi, lo ≤ hi → hi ≤ 21 → hi - lo ≤ fuel →
      counts3980.getD lo 0 ≤ cf →
      counts3980.getD (RangeCoder.binSearch cf fuel lo hi) 0 ≤ cf ∧
        RangeCoder.binSearch cf fuel lo hi ≤ hi := by
  intro fuel
  induction fuel with
  | zero =>
    intro lo hi hlh _ hfuel hcf
    unfold RangeCoder.binSearch
    exact ⟨hcf, hlh⟩
  | succ f ih =>
    intro lo hi hlh hhi hfuel hcf
    unfold RangeCoder.binSearch
    by_cases hlt : lo < hi
    · simp only [hlt, if_true]
      have hmid1 : lo + 1 ≤ (lo + hi + 1) / 2 := by omega
      have hmid2 : (lo + hi + 1) / 2 ≤ hi := by omega
      by_cases hc : counts3980.getD ((lo + hi + 1) / 2) 0 ≤ cf
      · simp only [hc, if_true]
        exact ih ((lo + hi + 1) / 2) hi hmid2 hhi (by omega) hc
      · simp only [hc, if_false]
        have := ih lo ((lo + hi + 1) / 2 - 1) (by omega) (by omega) (by omega) hcf
        exact ⟨this.1, le_trans this.2 (by omega)⟩
    · simp only [hlt, if_false]
      exact ⟨hcf, hlh⟩


/-- For a non-escape cumulative frequency (`cf ≤ 65492`) the binary search
lands strictly below the last table entry. -/
theorem binSearch_le_20 (cf : Nat) (hcf : cf ≤ 65492) :
    RangeCoder.binSearch cf 21 0 (MODEL_ELEMENTS - 1) ≤ 20 := by
  have h := binSearch_invariant cf 21 0 21 (by omega) (by omega) (by omega)
    (by simp [counts3980])
  have h21 : RangeCoder.binSearch cf 21 0 21 ≠ 21 := by
    intro he
    rw [he] at h
    have : counts3980.getD 21 0 = 65493 := by simp [counts3980]
    omega
  have hm : MODEL_ELEMENTS - 1 = 21 := rfl
  rw [hm]
  omega


/-- C7: for every sequence of `RiceState::update` calls starting from the
initial state `(k = 10, ksum = 16384)`, `k` stays at most 24; moreover at
`k = 0` an update never decrements `k` (the decrement branch is guarded by
`k > 0`, so the `u32` never wraps below 0). -/
theorem C7_rice_k_range :
    (∀ xs : List Nat, (riceRun RiceState.new xs).k ≤ 24) ∧
    (∀ (s : RiceState) (x : Nat), s.k = 0 → s.k ≤ (s.update x).k) := by
  constructor
  · have main : ∀ (xs : List Nat) (s : RiceState), s.k ≤ 24 →
        (riceRun s xs).k ≤ 24 := by
      intro xs
      induction xs with
      | nil => intro s hs; exact hs
      | cons x xs ih =>
        intro s hs
        exact ih (s.update x) (RiceState.update_k_le s x hs)
    intro xs
    exact main xs RiceState.new (by norm_num [RiceState.new])
  · intro s x h0
    unfold RiceState.update
    dsimp only
    split
    · omega
    · split <;> omega


/-- C7 witness: the theorem applied at a concrete update sequence and at a
concrete `k = 0` state. -/
theorem C7_rice_k_range_witness :
    (riceRun RiceState.new [0, 7, 100000, 3]).k ≤ 24 ∧
      (RiceState.mk 0 5).k ≤ ((RiceState.mk 0 5).update 7).k :=
  ⟨C7_rice_k_range.1 [0, 7, 100000, 3], C7_rice_k_range.2 (RiceState.mk 0 5) 7 rfl⟩


/-- C5 (code bug): at the initial Rice state and decoded value `x = 63`,
the implementation yields `ksum = 15903`: it subtracts
`(ksum + 16) >> 5` computed from the *post-add* accumulator (and saturates
the addition), while the claimed single-expression update
`ksum + (x+1)/2 - ((ksum_old + 16) >> 5)` (also the formula in the
source's own comment) yields `15904`. -/
theorem C5_rice_update_differs :
    (RiceState.new.update 63).ksum = 15903 ∧
    (RiceState.new.ksum + (63 + 1) / 2 - ((RiceState.new.ksum + 16) >>> 5)) % U32M
      = 15904 ∧
    (RiceState.new.update 63).ksum ≠
      (RiceState.new.ksum + (63 + 1) / 2 - ((RiceState.new.ksum + 16) >>> 5)) % U32M := by
  refine ⟨by decide, by decide, by decide⟩


/-- C4 (code bug): on the concrete frame bytes `[255, 255, 255, 255]` the
symbol decoder's `culshift(16)` yields `cf = 65535 > 65492`, and the escape
branch returns the sentinel `u32::MAX = 4294967295` after
`decode_update(65493, 43)` — not the claimed `cf - 65535 + 63 = 63` after
`update(1, cf)`; the overflow decoder then resolves the sentinel with a
second model symbol, not with two raw 16-bit reads. -/
theorem C4_symbol_escape_differs :
    ((RangeCoder.decodeCulshift (RangeCoder.new [255, 255, 255, 255]) 16).1 % U16M)
      = 65535 ∧
    (RangeCoder.getSymbol (RangeCoder.new [255, 255, 255, 255])).1 = U32MAX ∧
    (RangeCoder.getSymbol (RangeCoder.new [255, 255, 255, 255])).1 ≠
      (65535 - 65535 + 63) % U32M := by
  refine ⟨by decide, by decide, by decide⟩


/-- C1 (code bug): with the initial Rice state (`pivot = 512 < 0x10000`)
and frame bytes `[200, 100, 50, 25, 12, 6]` — on which both traces are
escape-free and every division succeeds, so the comparison isolates the
decode order — `decode_value`, which decodes the base *before* the
overflow symbol in this branch, produces `713` (with no division by zero:
`decodeValueChecked` returns `some` of the very same result), while the
specification's order (overflow symbol first with the spec's escape, then
`base = culfreq(pivot); update(1, base)`) produces `865`. -/
theorem C1_decode_order_differs :
    RiceState.new.pivot < 65536 ∧
    RangeCoder.decodeValueChecked (RangeCoder.new [200, 100, 50, 25, 12, 6])
        RiceState.new
      = some (RangeCoder.decodeValue (RangeCoder.new [200, 100, 50, 25, 12, 6])
          RiceState.new) ∧
    (RangeCoder.decodeValue (RangeCoder.new [200, 100, 50, 25, 12, 6])
        RiceState.new).1 = 713 ∧
    (RangeCoder.decodeValueOverflowFirst
        (RangeCoder.new [200, 100, 50, 25, 12, 6]) RiceState.new).map
        (fun t => t.1) = some 865 ∧
    (713 : Int) ≠ 865 := by
  refine ⟨by decide, by rfl, by decide, by rfl, by decide⟩


/-- C10: the clamped range-coder reads are bounded on *every* state (hence
on arbitrary, even corrupt, input): `culshift(shift)` is at most
`2^shift - 1`, `culfreq(tot_f)` is at most `tot_f - 1`, the `cf` decoded in
`get_symbol` is at most 65535, the binary-search index is at most 20 for
every non-escape `cf` (so the `COUNTS_3980` and `COUNTS_DIFF_3980` accesses
are in bounds), and the divisor `range >> 16` used by `get_symbol` is
nonzero whenever the normalization invariant `range > BOTTOM_VALUE` holds. -/
theorem C10_symbol_decode_safe :
    (∀ (rc : RangeCoder) (shift : Nat),
        (RangeCoder.decodeCulshift rc shift).1 ≤ 2 ^ shift - 1) ∧
    (∀ (rc : RangeCoder) (totF : Nat), 1 ≤ totF →
        (RangeCoder.decodeCulfreq rc totF).1 ≤ totF - 1) ∧
    (∀ rc : RangeCoder, (RangeCoder.decodeCulshift rc 16).1 ≤ 65535) ∧
    (∀ cf : Nat, cf ≤ 65492 →
        RangeCoder.binSearch cf 21 0 (MODEL_ELEMENTS - 1) ≤ 20 ∧
        RangeCoder.binSearch cf 21 0 (MODEL_ELEMENTS - 1) < countsDiff3980.length ∧
        RangeCoder.binSearch cf 21 0 (MODEL_ELEMENTS - 1) < counts3980.length) ∧
    (∀ rc : RangeCoder, BOTTOM_VALUE < rc.range → 0 < rc.range >>> 16) := by
  refine ⟨?_, ?_, ?_, ?_, ?_⟩
  · intro rc shift
    simp only [RangeCoder.decodeCulshift]
    exact min_le_right _ _
  · intro rc totF _
    simp only [RangeCoder.decodeCulfreq]
    exact min_le_right _ _
  · intro rc
    simp only [RangeCoder.decodeCulshift]
    exact min_le_right _ _
  · intro cf hcf
    have h20 := binSearch_le_20 cf hcf
    have hd : countsDiff3980.length = 21 := by simp [countsDiff3980]
    have hc : counts3980.length = 22 := by simp [counts3980]
    exact ⟨h20, by omega, by omega⟩
  · intro rc hr
    have : (8388608 : Nat) < rc.range := hr
    have h16 : rc.range >>> 16 = rc.range / 65536 := by
      simp [Nat.shiftRight_eq_div_pow]
    omega


/-- C10 witness: the bounds instantiated at concrete states and inputs. -/
theorem C10_symbol_decode_safe_witness :
    (RangeCoder.decodeCulfreq (RangeCoder.new [9, 8, 7]) 512).1 ≤ 511 ∧
    RangeCoder.binSearch 40000 21 0 (MODEL_ELEMENTS - 1) ≤ 20 ∧
    0 < (RangeCoder.new [9, 8, 7]).range >>> 16 :=
  ⟨C10_symbol_decode_safe.2.1 (RangeCoder.new [9, 8, 7]) 512 (by decide),
   (C10_symbol_decode_safe.2.2.2.1 40000 (by decide)).1,
   C10_symbol_decode_safe.2.2.2.2 (RangeCoder.new [9, 8, 7]) (by decide)⟩


/-- Reading with `getD` after `set` at a different index. -/
theorem getD_set_ne (l : List Int) (i j : Nat) (v d : Int) (h : i ≠ j) :
    (l.set i v).getD j d = l.getD j d := by
  simp [List.getD]
  rw [List.getElem?_set_ne h]


/-- Setting a coefficient below the window leaves `dotWindow` unchanged. -/
theorem dotWindow_set_lt (hist : List Int) (dpo : Nat) (i : Nat) (v : Int) :
    ∀ (n m : Nat) (cs : List Int), i < m →
      dotWindow (cs.set i v) hist dpo n m = dotWindow cs hist dpo n m := by
  intro n
  induction n with
  | zero => intro m cs _; rfl
  | succ k ih =>
    intro m cs him
    unfold dotWindow
    rw [getD_set_ne _ _ _ _ _ (by omega), ih (m + 1) cs (by omega)]


/-- The running sum of the fused loop is the dot product of the
coefficients as they stood at entry (each coefficient is read before it
is overwritten, and only indices already passed are overwritten). -/
theorem sumAdaptAux_fst (hist : List Int) (dpo apo : Nat) (sign : Int) :
    ∀ (n i : Nat) (sum : Int) (cs : List Int),
      (NNFilterStage.sumAdaptAux hist dpo apo sign n i sum cs).1
        = sum + dotWindow cs hist dpo n i := by
  intro n
  induction n with
  | zero => intro i sum cs; simp [NNFilterStage.sumAdaptAux, dotWindow]
  | succ k ih =>
    intro i sum cs
    unfold NNFilterStage.sumAdaptAux dotWindow
    rw [ih, dotWindow_set_lt hist dpo i _ k (i + 1) cs (by omega)]
    ring


/-- The reduction `wrap32` absorbs an inner `wrap32` of a summand. -/
theorem wrap32_wrap32_add (a b : Int) : wrap32 (wrap32 a + b) = wrap32 (a + b) := by
  unfold wrap32
  omega


/-- C3 counterexample: a reachable stage state (order 16, fracbits 11; two
samples fed after reset) and input 7 on which `decompress` returns 8 while
the claimed unrounded `input + (sum >> fracbits)` is 7 — the implementation
adds the rounding bias `1 << (fracbits - 1)` before the shift. -/
theorem C3_no_rounding_counterexample :
    ((stageRun (NNFilterStage.new 16 11) [100, -48]).decompress 7).1 = 8 ∧
    wrap32 (7 + sra (stageDot (stageRun (NNFilterStage.new 16 11) [100, -48]))
        (stageRun (NNFilterStage.new 16 11) [100, -48]).fracbits) = 7 ∧
    (8 : Int) ≠ 7 := by
  refine ⟨by decide, by decide, by decide⟩


/-- C3 amended: for every stage with `order > 0` and every input, the
output is `input + ((sum + (1 << (fracbits-1))) >> fracbits)` with 32-bit
wrapping, where `sum` is the signed dot product of the entry coefficients
and the history window — i.e. the claim holds *with* the rounding bias
`1 << (fracbits-1)` added to the sum before the arithmetic shift. -/
theorem C3_rounded_shift (s : NNFilterStage) (input : Int) (h : 0 < s.order) :
    (s.decompress input).1
      = wrap32 (input + sra (stageDot s + 2 ^ (s.fracbits - 1)) s.fracbits) := by
  have hne : ¬ s.order = 0 := by omega
  unfold NNFilterStage.decompress
  simp only [hne, if_false]
  rw [sumAdaptAux_fst]
  have hdot : (0 : Int) + dotWindow s.coeffs s.historybuffer (s.delayPos - s.order) s.order 0
      = stageDot s := by
    rw [zero_add]; rfl
  rw [hdot]
  split
  · dsimp only
    rw [wrap32_wrap32_add, add_comm]
  · dsimp only
    rw [wrap32_wrap32_add, add_comm]


/-- C3 witness: the amended theorem applied at a fresh order-16 stage and
input 5. -/
theorem C3_rounded_shift_witness :
    0 < (NNFilterStage.new 16 11).order ∧
    ((NNFilterStage.new 16 11).decompress 5).1
      = wrap32 (5 + sra (stageDot (NNFilterStage.new 16 11)
          + 2 ^ ((NNFilterStage.new 16 11).fracbits - 1))
          (NNFilterStage.new 16 11).fracbits) :=
  ⟨by decide, C3_rounded_shift (NNFilterStage.new 16 11) 5 (by decide)⟩


/-- Applying `wrap32` after `wrap64` is `wrap32`. -/
theorem wrap32_wrap64 (z : Int) : wrap32 (wrap64 z) = wrap32 z := by
  unfold wrap32 wrap64
  omega


/-- Applying `wrap32` to a sum of two `wrap32`-reduced terms. -/
theorem wrap32_add_wrap32_wrap32 (a b : Int) :
    wrap32 (wrap32 a + wrap32 b) = wrap32 (a + b) := by
  unfold wrap32
  omega


/-- The reduction `wrap32` absorbs an inner `wrap64` on a summand. -/
theorem wrap32_wrap64_add (a b : Int) : wrap32 (wrap64 a + b) = wrap32 (a + b) := by
  unfold wrap32 wrap64
  omega


/-- The predictor copy loop preserves the buffer length. -/
theorem length_bufCopy (s : Nat) :
    ∀ (n i : Nat) (b : List Int), (Predictor.bufCopy s n i b).length = b.length := by
  intro n
  induction n with
  | zero => intro i b; rfl
  | succ k ih => intro i b; unfold Predictor.bufCopy; rw [ih, List.length_set]


/-- The predictor zeroing loop preserves the buffer length. -/
theorem length_zeroFrom :
    ∀ (n i : Nat) (b : List Int), (Predictor.zeroFrom n i b).length = b.length := by
  intro n
  induction n with
  | zero => intro i b; rfl
  | succ k ih => intro i b; unfold Predictor.zeroFrom; rw [ih, List.length_set]


/-- The shared buffer advance preserves well-formedness. -/
theorem advanceBuf_wf (p : Predictor) (h : wfPred p) : wfPred (p.advanceBuf) := by
  obtain ⟨hlen, hpos⟩ := h
  unfold Predictor.advanceBuf
  by_cases hge : p.bufPos + 1 ≥ PRED_HISTORY_SIZE
  · simp only [hge, if_true]
    refine ⟨?_, ?_⟩
    · simp only [length_zeroFrom, length_bufCopy, hlen]
    · norm_num [PRED_HISTORY_SIZE]
  · simp only [hge, if_false]
    refine ⟨hlen, ?_⟩
    show p.bufPos + 1 < PRED_HISTORY_SIZE
    omega


/-- Source `update_filter` leaves `buf_pos` alone and preserves the ring length. -/
theorem updateFilter_buf (p : Predictor) (d : Int) (ch da db aa ab : Nat) :
    ((p.updateFilter d ch da db aa ab).2).bufPos = p.bufPos ∧
    ((p.updateFilter d ch da db aa ab).2).buf.length = p.buf.length := by
  unfold Predictor.updateFilter
  refine ⟨rfl, ?_⟩
  simp only [List.length_set]


/-- C8: `decode_stereo` runs `update_filter` on channel 0 (Y) and then on
channel 1 (X) with the Y/X offset sets, advances `buf_pos` once for both,
and emits `left = decoded_x - decoded_y/2` (truncating signed division,
wrapping subtraction, truncated to `i32`) and
`right = left + decoded_y` (wrapping 32-bit addition). -/
theorem C8_stereo_order_and_outputs (p : Predictor) (y x dy dx : Int)
    (p1 p2 : Predictor)
    (h1 : p.updateFilter y 0 YDELAYA YDELAYB YADAPTCOEFFSA YADAPTCOEFFSB = (dy, p1))
    (h2 : p1.updateFilter x 1 XDELAYA XDELAYB XADAPTCOEFFSA XADAPTCOEFFSB = (dx, p2)) :
    p.decodeStereo y x
      = ((wrap32 (dx - Int.tdiv dy 2), wrap32 (dx - Int.tdiv dy 2 + dy)),
         p2.advanceBuf) := by
  unfold Predictor.decodeStereo
  rw [h1]
  dsimp only
  rw [h2]
  dsimp only
  have hleft : wrap32 (wsub dx (Int.tdiv dy 2)) = wrap32 (dx - Int.tdiv dy 2) := by
    unfold wsub
    exact wrap32_wrap64 _
  rw [hleft, wrap32_add_wrap32_wrap32]


/-- C8 witness: the theorem applied to the fresh predictor and the inputs
`(3, -5)`, with the `update_filter` results supplied by `rfl`. -/
theorem C8_stereo_order_and_outputs_witness :
    (Predictor.new.decodeStereo 3 (-5)).1.2
      = wrap32
          ((((Predictor.new.updateFilter 3 0 YDELAYA YDELAYB YADAPTCOEFFSA
              YADAPTCOEFFSB).2).updateFilter (-5) 1 XDELAYA XDELAYB XADAPTCOEFFSA
              XADAPTCOEFFSB).1
            - Int.tdiv ((Predictor.new.updateFilter 3 0 YDELAYA YDELAYB
                YADAPTCOEFFSA YADAPTCOEFFSB).1) 2
            + (Predictor.new.updateFilter 3 0 YDELAYA YDELAYB YADAPTCOEFFSA
                YADAPTCOEFFSB).1) := by
  have h := C8_stereo_order_and_outputs Predictor.new 3 (-5)
      (Predictor.new.updateFilter 3 0 YDELAYA YDELAYB YADAPTCOEFFSA YADAPTCOEFFSB).1
      ((((Predictor.new.updateFilter 3 0 YDELAYA YDELAYB YADAPTCOEFFSA
          YADAPTCOEFFSB).2).updateFilter (-5) 1 XDELAYA XDELAYB XADAPTCOEFFSA
          XADAPTCOEFFSB).1)
      (Predictor.new.updateFilter 3 0 YDELAYA YDELAYB YADAPTCOEFFSA YADAPTCOEFFSB).2
      ((((Predictor.new.updateFilter 3 0 YDELAYA YDELAYB YADAPTCOEFFSA
          YADAPTCOEFFSB).2).updateFilter (-5) 1 XDELAYA XDELAYB XADAPTCOEFFSA
          XADAPTCOEFFSB).2)
      rfl rfl
  rw [h]


/-- C9: `Predictor::new` and `reset` establish `buf_pos < 512` with a
562-entry ring, `decode_mono` and `decode_stereo` preserve this (resetting
`buf_pos` to 0 via the wrap-copy when it reaches 512), and under the
invariant every access `buf[buf_pos + off]` with `off ≤ YDELAYA = 50` is
within the `HISTORY_SIZE + PREDICTOR_SIZE = 562` allocated entries. -/
theorem C9_bufpos_in_bounds :
    wfPred Predictor.new ∧
    (∀ p : Predictor, wfPred p → wfPred p.reset) ∧
    (∀ (p : Predictor) (x : Int), wfPred p → wfPred (p.decodeMono x).2) ∧
    (∀ (p : Predictor) (y x : Int), wfPred p → wfPred (p.decodeStereo y x).2) ∧
    (∀ p : Predictor, wfPred p → ∀ off : Nat, off ≤ YDELAYA →
        p.bufPos + off < PRED_HISTORY_SIZE + PREDICTOR_SIZE) := by
  refine ⟨⟨by decide, by decide⟩, ?_, ?_, ?_, ?_⟩
  · intro p h
    unfold wfPred Predictor.reset at *
    constructor
    · simpa using h.1
    · norm_num [PRED_HISTORY_SIZE]
  · intro p x h
    unfold Predictor.decodeMono
    dsimp only
    apply advanceBuf_wf
    refine ⟨?_, h.2⟩
    simp only [List.length_set]
    exact h.1
  · intro p y x h
    unfold Predictor.decodeStereo
    dsimp only
    apply advanceBuf_wf
    have u1 := updateFilter_buf p 3 0 YDELAYA YDELAYB YADAPTCOEFFSA YADAPTCOEFFSB
    constructor
    · rw [(updateFilter_buf _ _ _ _ _ _ _).2, (updateFilter_buf _ _ _ _ _ _ _).2]
      exact h.1
    · rw [(updateFilter_buf _ _ _ _ _ _ _).1, (updateFilter_buf _ _ _ _ _ _ _).1]
      exact h.2
  · intro p h off hoff
    have := h.2
    unfold PRED_HISTORY_SIZE at this
    unfold YDELAYA at hoff
    norm_num [PRED_HISTORY_SIZE, PREDICTOR_SIZE]
    omega


/-- C9 witness: the invariant at the fresh predictor, after a mono and a
stereo decode, and the concrete bound at offset 50. -/
theorem C9_bufpos_in_bounds_witness :
    wfPred (Predictor.new.decodeMono 3).2 ∧
    wfPred (Predictor.new.decodeStereo 3 (-5)).2 ∧
    Predictor.new.bufPos + 50 < PRED_HISTORY_SIZE + PREDICTOR_SIZE :=
  ⟨C9_bufpos_in_bounds.2.2.1 Predictor.new 3 ⟨by decide, by decide⟩,
   C9_bufpos_in_bounds.2.2.2.1 Predictor.new 3 (-5) ⟨by decide, by decide⟩,
   C9_bufpos_in_bounds.2.2.2.2 Predictor.new ⟨by decide, by decide⟩ 50 (by decide)⟩


/-- Source `Decoder::next_sample` is `none` exactly when the buffer is drained. -/
theorem nextSample_none_iff (d : Decoder) :
    d.nextSample = none ↔ d.buffer.nextSample = none := by
  unfold Decoder.nextSample
  cases h : d.buffer.nextSample with
  | none => simp
  | some p => simp


/-- A cleared buffer yields no sample. -/
theorem nextSample_clear (b : SampleBuffer) : (b.clear).nextSample = none := by
  unfold SampleBuffer.clear SampleBuffer.nextSample
  simp


/-- Source `decode_frame_mono` fails exactly when the frame-header skip fails. -/
theorem decodeFrameMono_error_iff (d : Decoder) (fd : List Nat) (n : Nat)
    (e : ApeError) :
    d.decodeFrameMono fd n = .error e ↔
      Decoder.skipFrameHeaderPure d.header d.currentFrame fd = .error e := by
  unfold Decoder.decodeFrameMono
  cases h : Decoder.skipFrameHeaderPure d.header d.currentFrame fd with
  | error e' => simp
  | ok data => simp


/-- Source `decode_frame_stereo` fails exactly when the frame-header skip fails. -/
theorem decodeFrameStereo_error_iff (d : Decoder) (fd : List Nat) (n : Nat)
    (e : ApeError) :
    d.decodeFrameStereo fd n = .error e ↔
      Decoder.skipFrameHeaderPure d.header d.currentFrame fd = .error e := by
  unfold Decoder.decodeFrameStereo
  cases h : Decoder.skipFrameHeaderPure d.header d.currentFrame fd with
  | error e' => simp
  | ok data => simp


theorem decodeNextFrame_error_next (d dm : Decoder) (e : ApeError)
    (h : d.decodeNextFrame = (.error e, dm)) :
    dm.finished = d.finished ∧ (dm.buffer = d.buffer ∨ dm.buffer = d.buffer.clear) ∧
    (dm.decodeNextFrame).1 = .error e := by
  unfold Decoder.decodeNextFrame at h
  split at h
  case isTrue => simp at h
  case isFalse h1 =>
    dsimp only at h
    by_cases hnb : Decoder.nblocksOf d.header d.currentFrame = 0
    · rw [if_pos hnb] at h
      simp at h
    · rw [if_neg hnb] at h
      split at h
      next e1 p heq =>
        simp only [Prod.mk.injEq, Except.error.injEq] at h
        obtain ⟨rfl, rfl⟩ := h
        refine ⟨rfl, Or.inl rfl, ?_⟩
        unfold Decoder.decodeNextFrame
        dsimp only
        rw [if_neg h1, if_neg hnb, heq]
      next frameData p heq =>
        by_cases hch : d.header.header.channels = 1
        · rw [if_pos hch] at h
          split at h
          next e2 heq2 =>
            simp only [Prod.mk.injEq, Except.error.injEq] at h
            obtain ⟨rfl, rfl⟩ := h
            refine ⟨rfl, Or.inr rfl, ?_⟩
            unfold Decoder.decodeNextFrame
            dsimp only
            rw [if_neg h1, if_neg hnb, heq]
            dsimp only
            rw [if_pos hch]
            have hskip := (decodeFrameMono_error_iff _ frameData
              (Decoder.nblocksOf d.header d.currentFrame) e2).mp heq2
            dsimp only at hskip
            split
            next e' heqg =>
              have hg := (decodeFrameMono_error_iff _ frameData
                (Decoder.nblocksOf d.header d.currentFrame) e').mp heqg
              dsimp only at hg
              rw [hskip] at hg
              injection hg with hee
              rw [hee]
            next d2 heqg =>
              unfold Decoder.decodeFrameMono at heqg
              dsimp only at heqg
              rw [hskip] at heqg
              simp at heqg
          next d2 heq2 => simp at h
        · rw [if_neg hch] at h
          split at h
          next e2 heq2 =>
            simp only [Prod.mk.injEq, Except.error.injEq] at h
            obtain ⟨rfl, rfl⟩ := h
            refine ⟨rfl, Or.inr rfl, ?_⟩
            unfold Decoder.decodeNextFrame
            dsimp only
            rw [if_neg h1, if_neg hnb, heq]
            dsimp only
            rw [if_neg hch]
            have hskip := (decodeFrameStereo_error_iff _ frameData
              (Decoder.nblocksOf d.header d.currentFrame) e2).mp heq2
            dsimp only at hskip
            split
            next e' heqg =>
              have hg := (decodeFrameStereo_error_iff _ frameData
                (Decoder.nblocksOf d.header d.currentFrame) e').mp heqg
              dsimp only at hg
              rw [hskip] at hg
              injection hg with hee
              rw [hee]
            next d2 heqg =>
              unfold Decoder.decodeFrameStereo at heqg
              dsimp only at heqg
              rw [hskip] at heqg
              simp at heqg
          next d2 heq2 => simp at h


/-- C2 amended: after the iterator yields an error item, the next call
yields the *same error again* (the iterator re-attempts the failed frame;
it is not fused and the error is not terminal). -/
theorem C2_error_repeats (d : Decoder) (e : ApeError) (d' : Decoder)
    (h : iterNext d = (some (.error e), d')) :
    (iterNext d').1 = some (.error e) := by
  unfold iterNext at h
  rcases hns : d.nextSample with _ | ⟨s, dx⟩
  · rw [hns] at h
    dsimp only at h
    by_cases hf : d.finished = true
    · rw [if_pos hf] at h
      simp at h
    · rw [if_neg hf] at h
      rcases hdn : d.decodeNextFrame with ⟨r, dm⟩
      rw [hdn] at h
      cases r with
      | ok b =>
        cases b
        · simp at h
        · dsimp only at h
          rcases hns2 : dm.nextSample with _ | ⟨s2, dm2⟩ <;> rw [hns2] at h <;> simp at h
      | error e0 =>
        dsimp only at h
        simp only [Prod.mk.injEq, Option.some.injEq, Except.error.injEq] at h
        obtain ⟨rfl, rfl⟩ := h
        obtain ⟨hfin, hbuf, hrep⟩ := decodeNextFrame_error_next d dm e0 hdn
        unfold iterNext
        have hnone : dm.nextSample = none := by
          rw [nextSample_none_iff] at hns ⊢
          rcases hbuf with hb | hb
          · rw [hb]; exact hns
          · rw [hb]; exact nextSample_clear _
        rw [hnone]
        dsimp only
        rw [if_neg (by rw [hfin]; exact hf)]
        rcases hdn2 : dm.decodeNextFrame with ⟨r2, dm2⟩
        rw [hdn2] at hrep
        dsimp only at hrep
        subst hrep
        rfl
  · rw [hns] at h
    simp at h


/-- C2 counterexample: on the concrete parseable file `fileC2` (one frame,
empty seek table) the iterator yields `Some(Err(InvalidSeekTable))` and the
*next* call yields `Some(Err(InvalidSeekTable))` again — not `None` as the
claim requires. -/
theorem C2_not_fused_counterexample :
    apeReaderNew fileC2 = .ok (decoderOf fileC2) ∧
    (iterNext (decoderOf fileC2)).1 = some (.error .invalidSeekTable) ∧
    (iterNext (iterNext (decoderOf fileC2)).2).1 = some (.error .invalidSeekTable) ∧
    (some (Except.error ApeError.invalidSeekTable) : Option (Except ApeError Int))
      ≠ none := by
  refine ⟨rfl, rfl, rfl, fun hx => Option.noConfusion hx⟩


/-- C2 witness: the amended theorem applied at the concrete decoder of
`fileC2`. -/
theorem C2_error_repeats_witness :
    (iterNext (iterNext (decoderOf fileC2)).2).1
      = some (.error ApeError.invalidSeekTable) :=
  C2_error_repeats (decoderOf fileC2) .invalidSeekTable
    (iterNext (decoderOf fileC2)).2 rfl


/-- The mono loop leaves the read cursor alone. -/
theorem monoLoop_pos : ∀ (n : Nat) (rc : RangeCoder) (rice : RiceState)
    (f : List NNFilterStage) (p : Predictor) (b : SampleBuffer),
    (Decoder.monoLoop n rc rice f p b).2.2.pos = b.pos := by
  intro n
  induction n with
  | zero => intro rc rice f p b; rfl
  | succ k ih =>
    intro rc rice f p b
    unfold Decoder.monoLoop
    rw [ih]
    rfl


/-- The mono loop pushes exactly one sample per block. -/
theorem monoLoop_len : ∀ (n : Nat) (rc : RangeCoder) (rice : RiceState)
    (f : List NNFilterStage) (p : Predictor) (b : SampleBuffer),
    (Decoder.monoLoop n rc rice f p b).2.2.samples.length = b.samples.length + n := by
  intro n
  induction n with
  | zero => intro rc rice f p b; rfl
  | succ k ih =>
    intro rc rice f p b
    unfold Decoder.monoLoop
    rw [ih]
    simp [SampleBuffer.push]
    omega


/-- The stereo loop leaves the read cursor alone. -/
theorem stereoLoop_pos : ∀ (n : Nat) (rc : RangeCoder) (ry rx : RiceState)
    (f0 f1 : List NNFilterStage) (p : Predictor) (b : SampleBuffer),
    (Decoder.stereoLoop n rc ry rx f0 f1 p b).2.2.2.pos = b.pos := by
  intro n
  induction n with
  | zero => intro rc ry rx f0 f1 p b; rfl
  | succ k ih =>
    intro rc ry rx f0 f1 p b
    unfold Decoder.stereoLoop
    rw [ih]
    rfl


/-- The stereo loop pushes exactly two samples per block. -/
theorem stereoLoop_len : ∀ (n : Nat) (rc : RangeCoder) (ry rx : RiceState)
    (f0 f1 : List NNFilterStage) (p : Predictor) (b : SampleBuffer),
    (Decoder.stereoLoop n rc ry rx f0 f1 p b).2.2.2.samples.length
      = b.samples.length + 2 * n := by
  intro n
  induction n with
  | zero => intro rc ry rx f0 f1 p b; rfl
  | succ k ih =>
    intro rc ry rx f0 f1 p b
    unfold Decoder.stereoLoop
    rw [ih]
    simp [SampleBuffer.pushStereo]
    omega


/-- A `none` from `next_sample` means the buffer is drained. -/
theorem bufRemaining_zero_of_none (d : Decoder) (h : d.nextSample = none) :
    bufRemaining d = 0 := by
  rw [nextSample_none_iff] at h
  unfold SampleBuffer.nextSample at h
  unfold bufRemaining
  split at h
  · exact absurd h (by simp)
  · omega


/-- A successful buffer read advances only the read cursor. -/
theorem sbNextSample_some (b : SampleBuffer) (s : Int) (b' : SampleBuffer)
    (h : b.nextSample = some (s, b')) :
    b' = { samples := b.samples, pos := b.pos + 1 } ∧ b.pos < b.samples.length := by
  unfold SampleBuffer.nextSample at h
  split at h
  · rename_i hlt
    simp only [Option.some.injEq, Prod.mk.injEq] at h
    exact ⟨h.2.symm, hlt⟩
  · simp at h


/-- A successful `next_sample` advances only the read cursor. -/
theorem nextSample_some (d : Decoder) (s : Int) (d' : Decoder)
    (h : d.nextSample = some (s, d')) :
    d' = { d with buffer := { samples := d.buffer.samples, pos := d.buffer.pos + 1 } }
      ∧ d.buffer.pos < d.buffer.samples.length := by
  unfold Decoder.nextSample at h
  rcases hb : d.buffer.nextSample with _ | ⟨s0, b0⟩
  · rw [hb] at h
    simp at h
  · rw [hb] at h
    simp only [Option.some.injEq, Prod.mk.injEq] at h
    obtain ⟨hb0, hlt⟩ := sbNextSample_some d.buffer s0 b0 hb
    rw [← h.2, hb0]
    exact ⟨rfl, hlt⟩


/-- Source `next_sample` succeeds while the buffer has samples left. -/
theorem nextSample_some_of_lt (d : Decoder)
    (h : d.buffer.pos < d.buffer.samples.length) :
    d.nextSample = some (d.buffer.samples.getD d.buffer.pos 0,
      { d with buffer := { samples := d.buffer.samples, pos := d.buffer.pos + 1 } }) := by
  unfold Decoder.nextSample SampleBuffer.nextSample
  rw [if_pos h]


/-- Splitting off the head frame of the remaining block count. -/
theorem blocksFrom_succ (h : ApeFileHeader) (i : Nat)
    (hi : i < h.header.totalFrames) :
    blocksFrom h i = Decoder.nblocksOf h i + blocksFrom h (i + 1) := by
  unfold blocksFrom Decoder.nblocksOf
  by_cases hlast : i = h.header.totalFrames - 1
  · rw [if_pos hi, if_pos hlast, if_neg (by omega)]
    have : h.header.totalFrames - 1 - i = 0 := by omega
    rw [this]
    simp
  · rw [if_pos hi, if_neg hlast, if_pos (by omega)]
    have hstep : h.header.totalFrames - 1 - i = (h.header.totalFrames - 1 - (i + 1)) + 1 := by
      omega
    rw [hstep, Nat.succ_mul]
    ring


/-- A frame whose data read and header skip succeed decodes to `Ok(true)`,
advancing the frame cursor and filling the cleared buffer with
`channels · nblocks` samples. -/
theorem decodeNextFrame_success (d : Decoder)
    (h1 : ¬ d.currentFrame ≥ d.header.header.totalFrames)
    (hnb : ¬ Decoder.nblocksOf d.header d.currentFrame = 0)
    (hok : frameOkB d.reader.file d.header d.currentFrame = true)
    (hch : d.header.header.channels = 1 ∨ d.header.header.channels = 2) :
    (d.decodeNextFrame).1 = .ok true ∧
    (d.decodeNextFrame).2.header = d.header ∧
    (d.decodeNextFrame).2.reader.file = d.reader.file ∧
    (d.decodeNextFrame).2.currentFrame = d.currentFrame + 1 ∧
    (d.decodeNextFrame).2.finished = d.finished ∧
    (d.decodeNextFrame).2.buffer.pos = 0 ∧
    (d.decodeNextFrame).2.buffer.samples.length
      = d.header.header.channels * Decoder.nblocksOf d.header d.currentFrame := by
  rcases hD : d.decodeNextFrame with ⟨r, dd⟩
  unfold Decoder.decodeNextFrame at hD
  rw [if_neg h1] at hD
  dsimp only at hD
  rw [if_neg hnb] at hD
  unfold frameOkB at hok
  rcases hrf : Decoder.readFrameDataPure d.reader.file d.header d.currentFrame
    with ⟨rr, p⟩
  rw [hrf] at hok hD
  cases rr with
  | error e1 => simp at hok
  | ok fd =>
    dsimp only at hok hD
    rcases hsk : Decoder.skipFrameHeaderPure d.header d.currentFrame fd with e2 | data
    · rw [hsk] at hok
      simp at hok
    · rcases hch with hch1 | hch2
      · rw [if_pos hch1] at hD
        unfold Decoder.decodeFrameMono at hD
        dsimp only at hD
        rw [hsk] at hD
        dsimp only at hD
        simp only [Prod.mk.injEq] at hD
        obtain ⟨hr, hdd⟩ := hD
        subst hr
        subst hdd
        refine ⟨rfl, rfl, rfl, rfl, rfl, ?_, ?_⟩
        · dsimp only
          rw [monoLoop_pos]
          rfl
        · dsimp only
          rw [monoLoop_len, hch1]
          simp [SampleBuffer.clear]
      · rw [if_neg (by omega)] at hD
        unfold Decoder.decodeFrameStereo at hD
        dsimp only at hD
        rw [hsk] at hD
        dsimp only at hD
        simp only [Prod.mk.injEq] at hD
        obtain ⟨hr, hdd⟩ := hD
        subst hr
        subst hdd
        refine ⟨rfl, rfl, rfl, rfl, rfl, ?_, ?_⟩
        · dsimp only
          rw [stereoLoop_pos]
          rfl
        · dsimp only
          rw [stereoLoop_len, hch2]
          simp [SampleBuffer.clear]


/-- One-step equation for `iterRun` at positive fuel. -/
theorem iterRun_succ (f : Nat) (d : Decoder) :
    iterRun (f + 1) d = match iterNext d with
      | (none, _) => []
      | (some x, d') => x :: iterRun f d' := rfl


/-- The iterator, run from any live decoder state whose remaining frames
all decode cleanly (and with no zero-block non-final frame), produces
exactly `remainingCount` items, all of them `Ok`. -/
theorem iterRun_spec : ∀ (fuel : Nat) (d : Decoder),
    d.finished = false →
    (d.header.header.totalFrames ≤ 1 ∨ 0 < d.header.header.blocksPerFrame) →
    (d.header.header.channels = 1 ∨ d.header.header.channels = 2) →
    (∀ i, d.currentFrame ≤ i → i < d.header.header.totalFrames →
        frameOkB d.reader.file d.header i = true) →
    remainingCount d + 1 ≤ fuel →
    (iterRun fuel d).length = remainingCount d ∧
      ∀ x ∈ iterRun fuel d, ∃ v, x = .ok v := by
  intro fuel
  induction fuel with
  | zero => intro d _ _ _ _ hfuel; omega
  | succ f ih =>
    intro d hfin hblk hch hframes hfuel
    rcases hns : d.nextSample with _ | ⟨s, dx⟩
    · have hrem0 : bufRemaining d = 0 := bufRemaining_zero_of_none d hns
      by_cases hge : d.currentFrame ≥ d.header.header.totalFrames
      · have hdn : d.decodeNextFrame = (.ok false, { d with finished := true }) := by
          unfold Decoder.decodeNextFrame
          rw [if_pos hge]
        have hstep : iterNext d = (none, { d with finished := true }) := by
          unfold iterNext
          rw [hns]
          dsimp only
          rw [if_neg (by rw [hfin]; simp), hdn]
        have hrun : iterRun (f + 1) d = [] := by
          unfold iterRun
          rw [hstep]
        have hrc : remainingCount d = 0 := by
          unfold remainingCount blocksFrom
          rw [if_neg (by omega)]
          omega
        rw [hrun, hrc]
        exact ⟨rfl, by intro x hx; simp at hx⟩
      · by_cases hnb : Decoder.nblocksOf d.header d.currentFrame = 0
        · have hdn : d.decodeNextFrame = (.ok false, { d with finished := true }) := by
            unfold Decoder.decodeNextFrame
            rw [if_neg hge]
            dsimp only
            rw [if_pos hnb]
          have hstep : iterNext d = (none, { d with finished := true }) := by
            unfold iterNext
            rw [hns]
            dsimp only
            rw [if_neg (by rw [hfin]; simp), hdn]
          have hrun : iterRun (f + 1) d = [] := by
            unfold iterRun
            rw [hstep]
          have hrc : remainingCount d = 0 := by
            unfold remainingCount blocksFrom
            rw [if_pos (by omega)]
            unfold Decoder.nblocksOf at hnb
            by_cases hlast : d.currentFrame = d.header.header.totalFrames - 1
            · rw [if_pos hlast] at hnb
              have hz : d.header.header.totalFrames - 1 - d.currentFrame = 0 := by omega
              rw [hz, hnb]
              simp [hrem0]
            · rw [if_neg hlast] at hnb
              rcases hblk with htf | hbpf
              · omega
              · omega
          rw [hrun, hrc]
          exact ⟨rfl, by intro x hx; simp at hx⟩
        · have hok := hframes d.currentFrame (le_refl _) (by omega)
          obtain ⟨hr, hhd, hfile, hcf, hfin2, hpos, hlen⟩ :=
            decodeNextFrame_success d hge hnb hok hch
          rcases hdn : d.decodeNextFrame with ⟨r, dd⟩
          rw [hdn] at hr hhd hfile hcf hfin2 hpos hlen
          dsimp only at hr hhd hfile hcf hfin2 hpos hlen
          subst hr
          have hnbpos : 0 < Decoder.nblocksOf d.header d.currentFrame := by omega
          have hchpos : 1 ≤ d.header.header.channels := by rcases hch with h | h <;> omega
          have hlt : dd.buffer.pos < dd.buffer.samples.length := by
            rw [hpos, hlen]
            exact Nat.mul_pos (by omega) hnbpos
          have hns2 := nextSample_some_of_lt dd hlt
          have hstep : iterNext d = (some (.ok (dd.buffer.samples.getD dd.buffer.pos 0)),
              { dd with buffer :=
                { samples := dd.buffer.samples, pos := dd.buffer.pos + 1 } }) := by
            unfold iterNext
            rw [hns]
            dsimp only
            rw [if_neg (by rw [hfin]; simp), hdn]
            dsimp only
            rw [hns2]
          have hrun : iterRun (f + 1) d
              = .ok (dd.buffer.samples.getD dd.buffer.pos 0) :: iterRun f
                { dd with buffer :=
                  { samples := dd.buffer.samples, pos := dd.buffer.pos + 1 } } := by
            rw [iterRun_succ, hstep]
          have hkey : remainingCount d = remainingCount
              { dd with buffer :=
                { samples := dd.buffer.samples, pos := dd.buffer.pos + 1 } } + 1 := by
            unfold remainingCount bufRemaining
            dsimp only
            rw [hpos, hlen, hcf, hhd]
            rw [blocksFrom_succ d.header d.currentFrame (by omega), Nat.mul_add]
            have hmpos : 1 ≤ d.header.header.channels *
                Decoder.nblocksOf d.header d.currentFrame :=
              Nat.mul_pos (by omega) hnbpos
            have h0 : d.buffer.samples.length - d.buffer.pos = 0 := hrem0
            generalize hA : d.header.header.channels *
                Decoder.nblocksOf d.header d.currentFrame = A at hmpos ⊢
            omega
          have ihres := ih
            { dd with buffer := { samples := dd.buffer.samples, pos := dd.buffer.pos + 1 } }
            (by dsimp only; rw [hfin2]; exact hfin)
            (by dsimp only; rw [hhd]; exact hblk)
            (by dsimp only; rw [hhd]; exact hch)
            (by
              intro i hi1 hi2
              dsimp only at hi1 hi2 ⊢
              rw [hhd] at hi2
              rw [hhd, hfile]
              exact hframes i (by omega) hi2)
            (by omega)
          constructor
          · rw [hrun]
            simp only [List.length_cons, ihres.1]
            omega
          · intro x hx
            rw [hrun] at hx
            rcases List.mem_cons.mp hx with hx1 | hx2
            · exact ⟨_, hx1⟩
            · exact ihres.2 x hx2
    · obtain ⟨hdx, hlt⟩ := nextSample_some d s dx hns
      have hstep : iterNext d = (some (.ok s), dx) := by
        unfold iterNext
        rw [hns]
      have hrun : iterRun (f + 1) d = .ok s :: iterRun f dx := by
        rw [iterRun_succ, hstep]
      subst hdx
      have hkey : remainingCount d = remainingCount
          { d with buffer :=
            { samples := d.buffer.samples, pos := d.buffer.pos + 1 } } + 1 := by
        unfold remainingCount bufRemaining
        dsimp only
        omega
      have ihres := ih
        { d with buffer := { samples := d.buffer.samples, pos := d.buffer.pos + 1 } }
        hfin hblk hch (by intro i hi1 hi2; exact hframes i hi1 hi2) (by omega)
      constructor
      · rw [hrun]
        simp only [List.length_cons, ihres.1]
        omega
      · intro x hx
        rw [hrun] at hx
        rcases List.mem_cons.mp hx with hx1 | hx2
        · exact ⟨_, hx1⟩
        · exact ihres.2 x hx2


/-- Source `read_header` only succeeds with a validated channel count. -/
theorem readHeader_channels (r : Reader) (h : ApeHeader) (r' : Reader)
    (hp : readHeader r = .ok (h, r')) : h.channels = 1 ∨ h.channels = 2 := by
  unfold readHeader at hp
  repeat' split at hp
  any_goals exact Except.noConfusion hp
  simp only [Except.ok.injEq, Prod.mk.injEq] at hp
  obtain ⟨hh, -⟩ := hp
  subst hh
  rename_i hguard hbps hlvl
  dsimp only
  omega


/-- A parsed file header has 1 or 2 channels. -/
theorem parseHeader_channels (r : Reader) (h : ApeFileHeader) (r' : Reader)
    (hp : parseHeader r = .ok (h, r')) :
    h.header.channels = 1 ∨ h.header.channels = 2 := by
  unfold parseHeader at hp
  dsimp only at hp
  repeat' split at hp
  any_goals exact Except.noConfusion hp
  rename_i d0 r2 heqd hx header r4 heqh x b r6 heq6
  simp only [Except.ok.injEq, Prod.mk.injEq] at hp
  obtain ⟨hh, -⟩ := hp
  subst hh
  dsimp only
  exact readHeader_channels _ _ _ heqh


/-- C6 amended: for every parsed file in which every frame decodes without
error and no non-final frame has zero blocks (`total_frames ≤ 1` or
`blocks_per_frame > 0` — the case the counterexample excludes), the
iterator produces exactly
`(total_frames == 0 ? 0 : (total_frames−1)·blocks_per_frame +
final_frame_blocks) · channels` items, all of them `Ok`. -/
theorem C6_sample_count (file : List Nat) (hdr : ApeFileHeader) (rd : Reader)
    (fuel : Nat)
    (hparse : parseHeader { file := file, rpos := 0 } = .ok (hdr, rd))
    (hblk : hdr.header.totalFrames ≤ 1 ∨ 0 < hdr.header.blocksPerFrame)
    (hframes : ∀ i, i < hdr.header.totalFrames → frameOkB rd.file hdr i = true)
    (hfuel : totalSamples hdr + 1 ≤ fuel) :
    (iterRun fuel (Decoder.new rd hdr)).length = totalSamples hdr ∧
      ∀ x ∈ iterRun fuel (Decoder.new rd hdr), ∃ v, x = .ok v := by
  have hch := parseHeader_channels _ _ _ hparse
  have hrc : remainingCount (Decoder.new rd hdr) = totalSamples hdr := by
    unfold remainingCount bufRemaining totalSamples totalBlocks blocksFrom Decoder.new
    dsimp only
    by_cases h0 : hdr.header.totalFrames = 0
    · rw [if_pos h0, if_neg (by omega)]
      simp [SampleBuffer.new]
    · rw [if_neg h0, if_pos (by omega)]
      simp [SampleBuffer.new, Nat.sub_zero, Nat.mul_comm]
  have hres := iterRun_spec fuel (Decoder.new rd hdr) rfl hblk hch
    (fun i _ hi => hframes i hi) (by omega)
  rw [hrc] at hres
  exact hres


/-- C6 witness: the amended count theorem applied to the concrete
zero-frame file `fileC6W`. -/
theorem C6_sample_count_witness :
    (iterRun 1 (Decoder.new parsedC6W.2 parsedC6W.1)).length
      = totalSamples parsedC6W.1 :=
  (C6_sample_count fileC6W parsedC6W.1 parsedC6W.2 1 rfl
    (by left; decide)
    (by
      intro i hi
      have h0 : parsedC6W.1.header.totalFrames = 0 := rfl
      omega)
    (by decide)).1


/-- C6 counterexample: `fileC6X` parses (`total_frames = 2`,
`blocks_per_frame = 0`, `final_frame_blocks = 5`, mono); its decoding
completes immediately — the first `next()` is `None`, no error is ever
yielded, zero samples are produced — yet the claimed formula gives
`(2−1)·0 + 5 = 5` samples. -/
theorem C6_count_counterexample :
    parseHeader { file := fileC6X, rpos := 0 } = .ok (parsedC6X.1, parsedC6X.2) ∧
    (iterNext (Decoder.new parsedC6X.2 parsedC6X.1)).1 = none ∧
    iterRun 10 (Decoder.new parsedC6X.2 parsedC6X.1) = [] ∧
    totalSamples parsedC6X.1 = 5 ∧
    (List.length ([] : List (Except ApeError Int)) ≠ 5) := by
  refine ⟨rfl, rfl, rfl, rfl, by decide⟩


end Ape
